import Mathlib

/-!
Verification of the game router of the Threads of Destiny repository
(src/unnamed/part_002, the authoritative snapshot the claims cite).

The development shallowly embeds the tRPC procedures of that router:
the ambient session becomes an explicit `Option String` (the user id),
`Date.now()` an explicit `now : Int`, `Math.random()` outcomes explicit
parameters, the external OpenAI calls explicit oracle arguments, and the
SQL table a list of rows threaded through every procedure.  `JSON.parse`
and `JSON.stringify` (the JavaScript runtime functions the router leans
on for the stored `currentChoices` column) are embedded as an executable
parser and printer for the JSON fragment the router exchanges: values
with integer numerics, which is the only numeric shape the router ever
writes (choice ids are integers throughout the repository).
-/

namespace ThreadsOfDestiny

deriving instance DecidableEq for Except

/-- Truthiness of a JavaScript number used as `x || d`: `0` is falsy. -/
def jsOrInt (x d : Int) : Int := if x = 0 then d else x

/-- Truthiness of an optional JavaScript string used as `x || d`:
`null`/`undefined` and the empty string are falsy. -/
def jsOrString (x : Option String) (d : String) : String :=
  match x with
  | some s => if s = "" then d else s
  | none => d

/-- Falsiness test `!x` for an optional JavaScript string (`null`,
`undefined` and `""` are falsy). -/
def jsFalsyOptStr (x : Option String) : Bool :=
  match x with
  | some s => s == ""
  | none => true

/-- Does the second list start with the first?  Helper for the embedding
of `String.prototype.includes`. -/
def hasPre : List Char → List Char → Bool
  | [], _ => true
  | _ :: _, [] => false
  | p :: ps, c :: cs => p == c && hasPre ps cs

/-- Substring search over char lists, the embedding of
`String.prototype.includes`. -/
def strIncludesL (needle : List Char) : List Char → Bool
  | [] => needle.isEmpty
  | c :: cs => hasPre needle (c :: cs) || strIncludesL needle cs

/-- Embedding of `s.includes(sub)` from JavaScript. -/
def strIncludes (s sub : String) : Bool := strIncludesL sub.data s.data

/-- Embedding of `s.toLowerCase()` on the ASCII alphabet the router's
"game over" test concerns. -/
def jsToLowerCase (s : String) : String := String.mk (s.data.map Char.toLower)

/-- One element of a choice list: `{id: number, text: string}` as the
router's zod schemas and the stored JSON use it. -/
structure Choice where
  id : Int
  text : String
deriving DecidableEq

/-! ### The JSON fragment

`JSON.parse` / `JSON.stringify` restricted to integer numerics.  The
parser accepts the standard grammar (whitespace, `null`, booleans,
integer numbers without leading zeros, strings with the standard escapes
including `\uXXXX`, arrays, objects with arbitrary and possibly repeated
keys) and rejects everything `JSON.parse` rejects on that fragment;
fractional and exponent numerals, which the router never produces, are
out of the modelled fragment.  The printer is `JSON.stringify`'s compact
form: insertion-order keys, no added whitespace, short escapes for the
two-character escapes JavaScript uses and `\u00xx` for the remaining
control characters. -/

/-- JSON values (integer numerics; object fields in textual order,
repeated keys kept). -/
inductive Json where
  | null : Json
  | bool (b : Bool) : Json
  | num (n : Int) : Json
  | str (s : String) : Json
  | arr (elems : List Json) : Json
  | obj (fields : List (String × Json)) : Json

/-- JSON / JavaScript whitespace on the alphabet the router exchanges
(space, tab, line feed, carriage return, by code point). -/
def isWsChar (c : Char) : Bool :=
  c.toNat = 32 || c.toNat = 9 || c.toNat = 10 || c.toNat = 13

/-- Drop leading whitespace. -/
def skipWs : List Char → List Char
  | [] => []
  | c :: cs => if isWsChar c then skipWs cs else c :: cs

/-- Drop a leading run of whitespace characters (used twice to embed
`String.prototype.trim`). -/
def dropWsPre : List Char → List Char
  | [] => []
  | c :: cs => if isWsChar c then dropWsPre cs else c :: cs

/-- Embedding of `String.prototype.trim` on the modelled whitespace
alphabet. -/
def jsTrim (s : String) : String :=
  String.mk ((dropWsPre ((dropWsPre s.data).reverse)).reverse)

/-- Digit test for the decimal digits (code points 48-57). -/
def isDigitChar (c : Char) : Bool := 48 ≤ c.toNat && c.toNat ≤ 57

/-- Value of a decimal digit list, most significant first. -/
def digitsToNat (cs : List Char) : Nat :=
  cs.foldl (fun a c => a * 10 + (c.toNat - 48)) 0

/-- Hexadecimal digit value, either case (by code point). -/
def hexVal (c : Char) : Option Nat :=
  if 48 ≤ c.toNat ∧ c.toNat ≤ 57 then some (c.toNat - 48)
  else if 97 ≤ c.toNat ∧ c.toNat ≤ 102 then some (c.toNat - 87)
  else if 65 ≤ c.toNat ∧ c.toNat ≤ 70 then some (c.toNat - 55)
  else none

/-- Does the input not start with a decimal digit (so a numeral before
it ends exactly there)? -/
def noDigitAhead : List Char → Bool
  | [] => true
  | c :: _ => !(isDigitChar c)

/-- Inverse of a string escape character (`\n`, `\t`, ... but not `\u`). -/
def unescapeChar (c : Char) : Option Char :=
  if c = '"' then some '"'
  else if c = '\\' then some '\\'
  else if c = '/' then some '/'
  else if c = 'b' then some (Char.ofNat 8)
  else if c = 'f' then some (Char.ofNat 12)
  else if c = 'n' then some '\n'
  else if c = 'r' then some '\r'
  else if c = 't' then some '\t'
  else none

/-- Parse the body of a JSON string after the opening quote, returning
the decoded characters and the input after the closing quote.  Raw
control characters and lone-surrogate escapes are refused, as
`JSON.parse` refuses the former and Lean cannot represent the latter. -/
def parseStringBody : List Char → Option (List Char × List Char)
  | [] => none
  | c :: rest =>
    if c = '"' then some ([], rest)
    else if c = '\\' then
      match rest with
      | [] => none
      | e :: rest2 =>
        if e = 'u' then
          match rest2 with
          | h1 :: h2 :: h3 :: h4 :: rest3 =>
            match hexVal h1, hexVal h2, hexVal h3, hexVal h4 with
            | some a, some b, some c2, some d =>
              let n := ((a * 16 + b) * 16 + c2) * 16 + d
              if n < 55296 then
                (parseStringBody rest3).map (fun p => (Char.ofNat n :: p.1, p.2))
              else if 57343 < n then
                (parseStringBody rest3).map (fun p => (Char.ofNat n :: p.1, p.2))
              else none
            | _, _, _, _ => none
          | _ => none
        else
          match unescapeChar e with
          | some u => (parseStringBody rest2).map (fun p => (u :: p.1, p.2))
          | none => none
    else if c.toNat < 32 then none
    else (parseStringBody rest).map (fun p => (c :: p.1, p.2))

/-- Parse a natural numeral: a nonempty digit run with no leading zero
(the numeral `0` itself excepted), as the JSON grammar requires. -/
def parseNat (cs : List Char) : Option (Nat × List Char) :=
  let p := cs.span isDigitChar
  if p.1 = [] then none
  else if p.1.head? = some '0' ∧ 1 < p.1.length then none
  else some (digitsToNat p.1, p.2)

/-- Parse a JSON number of the integer fragment: optional minus sign and
a natural numeral. -/
def parseNumber (cs : List Char) : Option (Json × List Char) :=
  if cs.head? = some '-' then
    (parseNat cs.tail).map (fun p => (Json.num (-(p.1 : Int)), p.2))
  else
    (parseNat cs).map (fun p => (Json.num (p.1 : Int), p.2))

/-- Match an expected literal tail (`ull` of `null`, ...). -/
def dropLit : List Char → List Char → Option (List Char)
  | [], cs => some cs
  | _ :: _, [] => none
  | p :: ps, c :: cs => if c = p then dropLit ps cs else none

mutual

/-- Parse one JSON value after skipping leading whitespace.  The fuel
only bounds the recursion; `parseJson` supplies more than any input can
consume. -/
def parseValue : Nat → List Char → Option (Json × List Char)
  | 0, _ => none
  | fuel + 1, cs =>
    match skipWs cs with
    | [] => none
    | c :: rest =>
      if c = 'n' then (dropLit ['u', 'l', 'l'] rest).map (fun r => (Json.null, r))
      else if c = 't' then (dropLit ['r', 'u', 'e'] rest).map (fun r => (Json.bool true, r))
      else if c = 'f' then (dropLit ['a', 'l', 's', 'e'] rest).map (fun r => (Json.bool false, r))
      else if c = '"' then (parseStringBody rest).map (fun p => (Json.str (String.mk p.1), p.2))
      else if c = '[' then
        let r1 := skipWs rest
        if r1.head? = some ']' then some (Json.arr [], r1.tail)
        else (parseElems fuel r1).map (fun p => (Json.arr p.1, p.2))
      else if c = '{' then
        let r1 := skipWs rest
        if r1.head? = some '}' then some (Json.obj [], r1.tail)
        else (parseFields fuel r1).map (fun p => (Json.obj p.1, p.2))
      else parseNumber (c :: rest)

/-- Parse the elements of a nonempty array up to and including the
closing bracket. -/
def parseElems : Nat → List Char → Option (List Json × List Char)
  | 0, _ => none
  | fuel + 1, cs =>
    match parseValue fuel cs with
    | none => none
    | some (v, r1) =>
      let r2 := skipWs r1
      if r2.head? = some ',' then
        (parseElems fuel r2.tail).map (fun p => (v :: p.1, p.2))
      else if r2.head? = some ']' then some ([v], r2.tail)
      else none

/-- Parse the fields of a nonempty object (input already at the opening
quote of the first key) up to and including the closing brace. -/
def parseFields : Nat → List Char → Option (List (String × Json) × List Char)
  | 0, _ => none
  | fuel + 1, cs =>
    if cs.head? = some '"' then
      match parseStringBody cs.tail with
      | none => none
      | some (key, r1) =>
        let r2 := skipWs r1
        if r2.head? = some ':' then
          match parseValue fuel r2.tail with
          | none => none
          | some (v, r3) =>
            let r4 := skipWs r3
            if r4.head? = some ',' then
              (parseFields fuel (skipWs r4.tail)).map
                (fun p => ((String.mk key, v) :: p.1, p.2))
            else if r4.head? = some '}' then some ([(String.mk key, v)], r4.tail)
            else none
        else none
    else none

end

/-- Embedding of `JSON.parse` on the integer fragment: one complete
value, possibly surrounded by whitespace; `none` models the thrown
`SyntaxError`. -/
def parseJson (s : String) : Option Json :=
  match parseValue (s.length + 1) s.data with
  | some (v, rest) => if (skipWs rest).isEmpty then some v else none
  | none => none

mutual

/-- Size of a JSON value, used as parser fuel bound. -/
def jsize : Json → Nat
  | .null => 1
  | .bool _ => 1
  | .num _ => 1
  | .str _ => 1
  | .arr xs => 1 + jsizeElems xs
  | .obj fs => 1 + jsizeFields fs

/-- Size of an element list. -/
def jsizeElems : List Json → Nat
  | [] => 0
  | x :: xs => 1 + jsize x + jsizeElems xs

/-- Size of a field list. -/
def jsizeFields : List (String × Json) → Nat
  | [] => 0
  | (_, v) :: fs => 1 + jsize v + jsizeFields fs

end

/-- Lower-case hexadecimal digit, as `JSON.stringify` prints `\u00xx`
escapes. -/
def hexDigitChar (n : Nat) : Char :=
  if n < 10 then Char.ofNat (48 + n) else Char.ofNat (87 + n)

/-- Escape one character the way `JSON.stringify` does: `\"`, `\\`, the
five short control escapes, `\u00xx` for other control characters, and
every other character verbatim. -/
def escapeChar (c : Char) : List Char :=
  if c = '"' then ['\\', '"']
  else if c = '\\' then ['\\', '\\']
  else if c = Char.ofNat 8 then ['\\', 'b']
  else if c = '\t' then ['\\', 't']
  else if c = '\n' then ['\\', 'n']
  else if c = Char.ofNat 12 then ['\\', 'f']
  else if c = '\r' then ['\\', 'r']
  else if c.toNat < 32 then
    ['\\', 'u', '0', '0', hexDigitChar (c.toNat / 16), hexDigitChar (c.toNat % 16)]
  else [c]

/-- Quote and escape a string, as `JSON.stringify` prints it. -/
def encodeStr (s : String) : List Char :=
  '"' :: s.data.flatMap escapeChar ++ ['"']

/-- Decimal digits of a natural number, most significant first. -/
def natToChars (n : Nat) : List Char :=
  if n < 10 then [Char.ofNat (48 + n)]
  else natToChars (n / 10) ++ [Char.ofNat (48 + n % 10)]
decreasing_by exact Nat.div_lt_self (by omega) (by omega)

/-- Decimal rendering of an integer, as JavaScript prints an integral
number. -/
def intToChars (i : Int) : List Char :=
  if i < 0 then '-' :: natToChars i.natAbs else natToChars i.toNat

mutual

/-- Embedding of `JSON.stringify` (compact form) on the integer
fragment. -/
def emitJson : Json → List Char
  | .null => "null".data
  | .bool true => "true".data
  | .bool false => "false".data
  | .num i => intToChars i
  | .str s => encodeStr s
  | .arr [] => ['[', ']']
  | .arr (x :: xs) => '[' :: (emitElems (x :: xs) ++ [']'])
  | .obj [] => ['{', '}']
  | .obj (f :: fs) => '{' :: (emitFields (f :: fs) ++ ['}'])

/-- Comma-joined array elements. -/
def emitElems : List Json → List Char
  | [] => []
  | [x] => emitJson x
  | x :: xs => emitJson x ++ ',' :: emitElems xs

/-- Comma-joined object fields, insertion order. -/
def emitFields : List (String × Json) → List Char
  | [] => []
  | [(k, v)] => encodeStr k ++ ':' :: emitJson v
  | (k, v) :: fs => encodeStr k ++ ':' :: emitJson v ++ ',' :: emitFields fs

end

/-! ### Stored-choice decoding and the AI reply validation

The router stores `currentChoices` as text and decodes it defensively on
every read (part_002 lines 249-278, 350-379): `JSON.parse` inside nested
try/catch, then a type-guard validation; any failure leaves the decoded
list empty.  `generateStoryWithAI` applies the same item type guard to
the external reply (lines 154-170). -/

/-- Last value of a key among an object's fields, as a JavaScript object
built by `JSON.parse` keeps the last of repeated keys; `none` when the
key is absent (`'k' in obj` false). -/
def objGet (fields : List (String × Json)) (key : String) : Option Json :=
  fields.foldl (fun acc p => if p.1 == key then some p.2 else acc) none

/-- Type guard of one choice item (lines 259-266 / 360-367): an object
whose `id` is a number and whose `text` is a string; extra fields pass. -/
def asChoiceItem : Json → Option Choice
  | .obj fields =>
    match objGet fields "id", objGet fields "text" with
    | some (.num i), some (.str t) => some ⟨i, t⟩
    | _, _ => none
  | _ => none

/-- Validation of a decoded choices value: `Array.isArray(parsed)` and
the item type guard on every element. -/
def validateChoices : Json → Option (List Choice)
  | .arr items => items.mapM asChoiceItem
  | _ => none

/-- Defensive decode of the stored `currentChoices` text (lines 249-278
and 350-379): falsy field or whitespace-only text is skipped, a parse or
validation failure is caught, and in every such case the decoded list
stays empty. -/
def parseStoredChoices (stored : Option String) : List Choice :=
  match stored with
  | none => []
  | some s =>
    if s = "" then []
    else if jsTrim s = "" then []
    else
      match parseJson s with
      | none => []
      | some j => (validateChoices j).getD []

/-- JSON value `JSON.stringify(input.currentChoices)` serialises: an
array of `{"id": ..., "text": ...}` objects in insertion order. -/
def choicesToJson (l : List Choice) : Json :=
  Json.arr (l.map (fun c => Json.obj [("id", Json.num c.id), ("text", Json.str c.text)]))

/-- Embedding of `JSON.stringify(input.currentChoices)` (lines 509 and
628). -/
def stringifyChoices (l : List Choice) : String :=
  String.mk (emitJson (choicesToJson l))

/-- Shape of a validated AI story reply (interface AIStoryResponse,
lines 20-25). -/
structure AIStoryResponse where
  story : String
  choices : List Choice
  backgroundDescription : String
  isGameOver : Bool
deriving DecidableEq

/-- Type-guard validation of the parsed AI reply (lines 154-170): an
object with string `story`, string `backgroundDescription` and a
`choices` array every element of which passes the item guard.  The
`isGameOver` field is not validated there; line 176 overwrites it before
the reply is returned, so the guard leaves it `false`. -/
def validateAIResponse : Json → Option AIStoryResponse
  | .obj fields =>
    match objGet fields "story", objGet fields "choices", objGet fields "backgroundDescription" with
    | some (.str story), some choicesJson, some (.str bg) =>
      (validateChoices choicesJson).map
        (fun cs => { story := story, choices := cs, backgroundDescription := bg, isGameOver := false })
    | _, _, _ => none
  | _ => none

/-- Helper of part_002 lines 210-215: a reply is a game-over reply when
it has at least one choice and every choice's lower-cased text contains
the substring "game over". -/
def checkIfGameOver (choices : List Choice) : Bool :=
  decide (choices.length > 0) &&
    choices.all (fun choice => strIncludes (jsToLowerCase choice.text) "game over")

/-! ### The persisted rows

Modelled from the spec: the `game_save` schema snapshot this router
version compiles against is not among the repository's files — the
snapshots under src/ lack the `slotNumber`, `slotName` and `score`
columns the router reads and writes — so those three columns follow
spec section 3 (`slotNumber`: integer natural-key component, `slotName`:
nullable display label, `score`: integer).  The remaining columns are as
in the src/ schema snapshots: a not-null autoincrement `id`, not-null
`userId`, `gamePhase`, `createdAt`, `updatedAt`, and nullable text for
the narrative fields. -/
structure GameSaveRow where
  id : Int
  userId : String
  slotNumber : Int
  slotName : Option String
  gamePhase : String
  spriteDescription : Option String
  spriteUrl : Option String
  gameTheme : Option String
  currentStory : Option String
  currentChoices : Option String
  currentBackgroundDescription : Option String
  currentBackgroundImageUrl : Option String
  score : Int
  createdAt : Int
  updatedAt : Int
deriving DecidableEq

/-- The database: the `game_save` table's rows plus the autoincrement
counter. -/
structure GameDB where
  rows : List GameSaveRow
  nextId : Int
deriving DecidableEq

/-- Predicate of the repeated `where(and(eq(gameSaves.userId, userId),
eq(gameSaves.slotNumber, n)))` clause. -/
def rowMatches (userId : String) (slotNumber : Int) (r : GameSaveRow) : Bool :=
  r.userId == userId && r.slotNumber == slotNumber

/-- Embedding of `select().from(gameSaves).where(and(eq userId, eq
slotNumber)).limit(1)`. -/
def selectUserSlot (db : GameDB) (userId : String) (slotNumber : Int) : List GameSaveRow :=
  (db.rows.filter (rowMatches userId slotNumber)).take 1

/-- Insertion step of the insertion sort embedding `orderBy`. -/
def insertBy (le : α → α → Bool) (a : α) : List α → List α
  | [] => [a]
  | b :: bs => if le a b then a :: b :: bs else b :: insertBy le a bs

/-- Insertion sort embedding a SQL `orderBy` (ascending). -/
def sortBy (le : α → α → Bool) : List α → List α
  | [] => []
  | a :: as => insertBy le a (sortBy le as)

/-- Rows of one user ordered by slot number
(`.where(eq(gameSaves.userId, userId)).orderBy(gameSaves.slotNumber)`,
lines 234-238). -/
def selectUserRowsBySlot (db : GameDB) (userId : String) : List GameSaveRow :=
  sortBy (fun a b => a.slotNumber ≤ b.slotNumber)
    (db.rows.filter (fun r => r.userId == userId))

/-- Rows of one user ordered by `updatedAt` ascending
(`.orderBy(gameSaves.updatedAt)`, lines 634-638). -/
def selectUserRowsByUpdated (db : GameDB) (userId : String) : List GameSaveRow :=
  sortBy (fun a b => a.updatedAt ≤ b.updatedAt)
    (db.rows.filter (fun r => r.userId == userId))

/-- The warning string the read procedures return to an unauthenticated
caller. -/
def notLoggedInSaveWarning : String :=
  "You are not logged in. Your game progress won't be saved to your account."

/-- The warning string the gameplay procedures attach for an
unauthenticated caller. -/
def notLoggedInPlayWarning : String :=
  "You are not logged in. Your game progress won't be saved."

/-! ### getSaveSlots -/

/-- One entry of the processed slot list `getSaveSlots` returns: either
a projection of a stored row or the synthesized empty placeholder
(absent JavaScript fields are `none`). -/
structure ProcessedSlot where
  slotNumber : Int
  slotName : String
  isEmpty : Bool
  gamePhase : Option String
  spriteDescription : Option String
  spriteUrl : Option String
  gameTheme : Option String
  currentStory : Option String
  currentChoices : Option (List Choice)
  currentBackgroundImageUrl : Option String
  score : Option Int
  updatedAt : Option Int
deriving DecidableEq

/-- The synthesized placeholder pushed for a slot with no row (lines
305-309). -/
def emptySlotEntry (i : Int) : ProcessedSlot where
  slotNumber := i
  slotName := s!"Save Slot {i}"
  isEmpty := true
  gamePhase := none
  spriteDescription := none
  spriteUrl := none
  gameTheme := none
  currentStory := none
  currentChoices := none
  currentBackgroundImageUrl := none
  score := none
  updatedAt := none

/-- The projection pushed for a stored row (lines 247-301): choices
decoded defensively, `isEmpty` when the row lacks a truthy `gamePhase`
or `spriteUrl`, defaulted name, `score || 0`. -/
def projectSlotRow (i : Int) (slot : GameSaveRow) : ProcessedSlot where
  slotNumber := i
  slotName := jsOrString slot.slotName s!"Save Slot {i}"
  isEmpty := (slot.gamePhase == "") || jsFalsyOptStr slot.spriteUrl
  gamePhase := some slot.gamePhase
  spriteDescription := slot.spriteDescription
  spriteUrl := slot.spriteUrl
  gameTheme := slot.gameTheme
  currentStory := slot.currentStory
  currentChoices := some (parseStoredChoices slot.currentChoices)
  currentBackgroundImageUrl := slot.currentBackgroundImageUrl
  score := some (jsOrInt slot.score 0)
  updatedAt := some slot.updatedAt

/-- Body of the `for (let i = 1; i <= 3; i++)` loop (lines 244-311). -/
def processSlot (saveSlots : List GameSaveRow) (i : Int) : ProcessedSlot :=
  match saveSlots.find? (fun slot => slot.slotNumber == i) with
  | some slot => projectSlotRow i slot
  | none => emptySlotEntry i

/-- Result of `getSaveSlots`. -/
inductive GetSaveSlotsResult where
  | unauthenticated (warning : String) : GetSaveSlotsResult
  | success (saveSlots : List ProcessedSlot) : GetSaveSlotsResult
deriving DecidableEq

/-- Embedding of the `getSaveSlots` query (lines 219-318). -/
def getSaveSlots (db : GameDB) (session : Option String) : GetSaveSlotsResult :=
  match session with
  | none => .unauthenticated notLoggedInSaveWarning
  | some userId =>
    let saveSlots := selectUserRowsBySlot db userId
    .success (([1, 2, 3] : List Int).map (processSlot saveSlots))

/-! ### loadGameSlot -/

/-- The stored row as `loadGameSlot` returns it: the spread
`{...save, currentChoices: parsedChoices}`. -/
structure LoadedSaveData where
  id : Int
  userId : String
  slotNumber : Int
  slotName : Option String
  gamePhase : String
  spriteDescription : Option String
  spriteUrl : Option String
  gameTheme : Option String
  currentStory : Option String
  currentChoices : List Choice
  currentBackgroundDescription : Option String
  currentBackgroundImageUrl : Option String
  score : Int
  createdAt : Int
  updatedAt : Int
deriving DecidableEq

/-- The spread `{...save, currentChoices: parsedChoices}` (lines
383-386). -/
def spreadWithChoices (r : GameSaveRow) (cs : List Choice) : LoadedSaveData where
  id := r.id
  userId := r.userId
  slotNumber := r.slotNumber
  slotName := r.slotName
  gamePhase := r.gamePhase
  spriteDescription := r.spriteDescription
  spriteUrl := r.spriteUrl
  gameTheme := r.gameTheme
  currentStory := r.currentStory
  currentChoices := cs
  currentBackgroundDescription := r.currentBackgroundDescription
  currentBackgroundImageUrl := r.currentBackgroundImageUrl
  score := r.score
  createdAt := r.createdAt
  updatedAt := r.updatedAt

/-- Result of `loadGameSlot`. -/
inductive LoadSlotResult where
  | unauthenticated (warning : String) : LoadSlotResult
  | loaded (saveData : LoadedSaveData) : LoadSlotResult
  | empty (slotNumber : Int) : LoadSlotResult
deriving DecidableEq

/-- Message modelling the rejection zod's
`z.number().int().min(1).max(3)` raises before the handler runs. -/
def slotRangeRejection : String :=
  "Input validation failed: slotNumber must be an integer between 1 and 3"

/-- Embedding of the `loadGameSlot` query (lines 321-392): zod rejects a
slot number outside 1..3 before the handler runs; the handler then
answers unauthenticated, loaded (with defensively decoded choices) or
empty. -/
def loadGameSlot (db : GameDB) (session : Option String) (slotNumber : Int) :
    Except String LoadSlotResult :=
  if slotNumber < 1 ∨ 3 < slotNumber then .error slotRangeRejection
  else
    match session with
    | none => .ok (.unauthenticated notLoggedInSaveWarning)
    | some userId =>
      match (selectUserSlot db userId slotNumber).head? with
      | some save =>
        .ok (.loaded (spreadWithChoices save (parseStoredChoices save.currentChoices)))
      | none => .ok (.empty slotNumber)

/-! ### saveGameSlot -/

/-- Input of `saveGameSlot` after zod (lines 464-479).  `slotNumber` is
a bare `z.number()` — the schema puts no range on it — and `gamePhase`
is the enum; nullable/optional strings collapse to `Option` because the
handler sends `input.x ?? null` for each.  The `z.any()`
`spritePosition` is accepted and never read by the handler, so it is
omitted. -/
structure SaveGameSlotInput where
  slotNumber : Int
  gamePhase : String
  slotName : Option String
  spriteDescription : Option String
  spriteUrl : Option String
  gameTheme : Option String
  currentStory : Option String
  currentChoices : Option (List Choice)
  currentBackgroundDescription : Option String
  currentBackgroundImageUrl : Option String
  score : Option Int
deriving DecidableEq

/-- Values zod's `z.enum(["sprite", "theme", "playing"])` accepts. -/
def validGamePhase (s : String) : Bool :=
  s == "sprite" || s == "theme" || s == "playing"

/-- Message modelling the rejection the `gamePhase` enum raises before a
save handler runs. -/
def gamePhaseRejection : String :=
  "Input validation failed: gamePhase must be sprite, theme or playing"

/-- Result record of `saveGameSlot` (absent fields are `none`). -/
structure SaveSlotResult where
  success : Bool
  warning : Option String
  slotNumber : Option Int
  score : Option Int
deriving DecidableEq

/-- Row updated in place by the `saveGameSlot` update branch (lines
540-560): every listed column is set (`?? null` sends explicit nulls);
the optional `slotName`, being possibly `undefined`, is skipped by the
ORM when absent; `userId` and `slotNumber` are not touched. -/
def updateRowForSave (input : SaveGameSlotInput) (newScore : Int) (now : Int)
    (r : GameSaveRow) : GameSaveRow :=
  { r with
    gamePhase := input.gamePhase
    slotName := match input.slotName with
      | some s => some s
      | none => r.slotName
    spriteDescription := input.spriteDescription
    spriteUrl := input.spriteUrl
    gameTheme := input.gameTheme
    currentStory := input.currentStory
    currentChoices := some (match input.currentChoices with
      | some cs => stringifyChoices cs
      | none => "[]")
    currentBackgroundDescription := input.currentBackgroundDescription
    currentBackgroundImageUrl := input.currentBackgroundImageUrl
    score := newScore
    updatedAt := now }

/-- Row inserted by the `saveGameSlot` insert branch (lines 569-586). -/
def insertRowForSave (userId : String) (input : SaveGameSlotInput) (newScore : Int)
    (now : Int) (id : Int) : GameSaveRow where
  id := id
  userId := userId
  slotNumber := input.slotNumber
  slotName := some (jsOrString input.slotName s!"Save Slot {input.slotNumber}")
  gamePhase := input.gamePhase
  spriteDescription := input.spriteDescription
  spriteUrl := input.spriteUrl
  gameTheme := input.gameTheme
  currentStory := input.currentStory
  currentChoices := some (match input.currentChoices with
    | some cs => stringifyChoices cs
    | none => "[]")
  currentBackgroundDescription := input.currentBackgroundDescription
  currentBackgroundImageUrl := input.currentBackgroundImageUrl
  score := newScore
  createdAt := now
  updatedAt := now

/-- Embedding of the `saveGameSlot` mutation (lines 463-599): zod checks
only the `gamePhase` enum; an unauthenticated caller gets
`success: false` plus a warning and no write; otherwise the score is the
explicit input score, else the prior score (0 with no prior row) plus
one, and the row for `(userId, slotNumber)` is updated in place or
freshly inserted. -/
def saveGameSlot (db : GameDB) (session : Option String) (now : Int)
    (input : SaveGameSlotInput) : Except String (SaveSlotResult × GameDB) :=
  if ¬ validGamePhase input.gamePhase then .error gamePhaseRejection
  else
    match session with
    | none =>
      .ok ({ success := false,
             warning := some "Game state not saved to database. Log in to save your progress.",
             slotNumber := none, score := none }, db)
    | some userId =>
      let existingSave := selectUserSlot db userId input.slotNumber
      let currentScore : Int := match existingSave.head? with
        | some r => jsOrInt r.score 0
        | none => 0
      let newScore : Int := match input.score with
        | some v => v
        | none => currentScore + 1
      match existingSave.head? with
      | some _ =>
        .ok ({ success := true, warning := none,
               slotNumber := some input.slotNumber, score := some newScore },
             { db with rows := db.rows.map (fun r =>
                 if rowMatches userId input.slotNumber r then
                   updateRowForSave input newScore now r
                 else r) })
      | none =>
        .ok ({ success := true, warning := none,
               slotNumber := some input.slotNumber, score := some newScore },
             { rows := db.rows ++ [insertRowForSave userId input newScore now db.nextId],
               nextId := db.nextId + 1 })

/-! ### saveGame (legacy) -/

/-- Input of the legacy `saveGame` mutation (lines 602-614). -/
structure SaveGameInput where
  gamePhase : String
  spriteDescription : Option String
  spriteUrl : Option String
  gameTheme : Option String
  currentStory : Option String
  currentChoices : Option (List Choice)
  currentBackgroundDescription : Option String
  currentBackgroundImageUrl : Option String
deriving DecidableEq

/-- Result record of `saveGame`. -/
structure SaveGameResult where
  success : Bool
  warning : Option String
deriving DecidableEq

/-- Row updated by the legacy `saveGame` update branch (lines 647-661),
applied to the row whose `id` is that of the first user row in
`updatedAt` order. -/
def updateRowForLegacySave (input : SaveGameInput) (newScore : Int) (now : Int)
    (r : GameSaveRow) : GameSaveRow :=
  { r with
    gamePhase := input.gamePhase
    spriteDescription := input.spriteDescription
    spriteUrl := input.spriteUrl
    gameTheme := input.gameTheme
    currentStory := input.currentStory
    currentChoices := some (match input.currentChoices with
      | some cs => stringifyChoices cs
      | none => "[]")
    currentBackgroundDescription := input.currentBackgroundDescription
    currentBackgroundImageUrl := input.currentBackgroundImageUrl
    score := newScore
    updatedAt := now }

/-- Row inserted by the legacy `saveGame` insert branch (lines 664-681),
always slot 1. -/
def insertRowForLegacySave (userId : String) (input : SaveGameInput) (newScore : Int)
    (now : Int) (id : Int) : GameSaveRow where
  id := id
  userId := userId
  slotNumber := 1
  slotName := some "Save Slot 1"
  gamePhase := input.gamePhase
  spriteDescription := input.spriteDescription
  spriteUrl := input.spriteUrl
  gameTheme := input.gameTheme
  currentStory := input.currentStory
  currentChoices := some (match input.currentChoices with
    | some cs => stringifyChoices cs
    | none => "[]")
  currentBackgroundDescription := input.currentBackgroundDescription
  currentBackgroundImageUrl := input.currentBackgroundImageUrl
  score := newScore
  createdAt := now
  updatedAt := now

/-- Embedding of the legacy `saveGame` mutation (lines 602-685).  Note
the unauthenticated branch returns `success: true` together with the
warning (lines 619-622). -/
def saveGame (db : GameDB) (session : Option String) (now : Int)
    (input : SaveGameInput) : Except String (SaveGameResult × GameDB) :=
  if ¬ validGamePhase input.gamePhase then .error gamePhaseRejection
  else
    match session with
    | none =>
      .ok ({ success := true,
             warning := some "Game state not saved to database. Log in to save your progress." },
           db)
    | some userId =>
      let existingSaves := selectUserRowsByUpdated db userId
      let currentScore : Int := match existingSaves.head? with
        | some r => jsOrInt r.score 0
        | none => 0
      let newScore := currentScore + 1
      match existingSaves.head? with
      | some first =>
        .ok ({ success := true, warning := none },
             { db with rows := db.rows.map (fun r =>
                 if r.id == first.id then updateRowForLegacySave input newScore now r
                 else r) })
      | none =>
        .ok ({ success := true, warning := none },
             { rows := db.rows ++ [insertRowForLegacySave userId input newScore now db.nextId],
               nextId := db.nextId + 1 })

/-! ### deleteGameSave -/

/-- Result record of `deleteGameSave`. -/
structure DeleteSaveResult where
  success : Bool
  message : String
deriving DecidableEq

/-- Embedding of the `deleteGameSave` mutation (lines 915-946): the
input schema is a bare `z.number()` with no range check; an
unauthenticated caller gets `success: false` and no write; otherwise
every row of the (userId, slotNumber) pair is deleted and the call
reports success whether or not a row existed. -/
def deleteGameSave (db : GameDB) (session : Option String) (slotNumber : Int) :
    DeleteSaveResult × GameDB :=
  match session with
  | none => ({ success := false, message := "User not authenticated" }, db)
  | some userId =>
    ({ success := true, message := "Game save deleted successfully" },
     { db with rows := db.rows.filter (fun r => ¬ rowMatches userId slotNumber r) })

/-! ### generateStoryWithAI

The function (part_002 lines 68-207) builds a prompt, calls the chat
API once, validates the reply's shape and falls back on any failure.
The prompt construction (lines 86-117) only feeds the external call and
cannot influence the returned value beyond the oracle's answer, so the
embedding takes the call's outcome as an explicit argument; the random
draw `Math.floor(Math.random() * 3) + 1` of the fallback (line 195)
becomes the explicit argument `choiceNum`. -/

/-- Named input fields of `generateStoryWithAI`. -/
structure GenStoryInput where
  theme : Option String
  previousStory : Option String
  choice : Option String
  spriteDesc : Option String
deriving DecidableEq

/-- Outcome of the external `openai.chat.completions.create` call:
either the call threw, or it answered with `choices[0]?.message?.content`
possibly missing. -/
inductive ChatOutcome where
  | failure : ChatOutcome
  | reply (content : Option String) : ChatOutcome
deriving DecidableEq

/-- Reply returned when the API key is missing (lines 76-84). -/
def placeholderResponse (input : GenStoryInput) : AIStoryResponse :=
  let theme := input.theme.getD "adventure"
  { story := s!"(Placeholder: API Key Missing) Setting the scene for the {theme}...",
    choices := [⟨1, "Proceed"⟩, ⟨2, "Look around"⟩],
    backgroundDescription := s!"A placeholder background for {theme}",
    isGameOver := false }

/-- Mock reply of the catch block (lines 190-205): note it depends on
the random draw `choiceNum`. -/
def mockFallback (input : GenStoryInput) (choiceNum : Int) : AIStoryResponse :=
  let theme := input.theme.getD "adventure"
  let spriteDesc := input.spriteDesc.getD "a brave adventurer"
  let baseStory := match input.choice with
    | some ch => s!"Following choice '{ch}', something else happens in the {theme} setting."
    | none => s!"Starting the adventure in a {theme} world with a character like {spriteDesc}."
  { story := s!"{baseStory} What is the next move? (Random choice: {choiceNum})",
    choices := [⟨1, s!"Option A ({choiceNum}) for {theme}"⟩,
                ⟨2, s!"Option B ({choiceNum}) for {theme}"⟩,
                ⟨3, s!"Option C ({choiceNum}) for {theme}"⟩],
    backgroundDescription :=
      s!"A dynamic background representing the current state ({choiceNum}) in the {theme} adventure.",
    isGameOver := false }

/-- Try-block of `generateStoryWithAI` (lines 119-181): a throw of the
external call, a missing content, an unparseable content or a reply of
the wrong shape each ends in the error the catch block receives; a
validated reply gets `isGameOver` overwritten by `checkIfGameOver` of
its choice texts (lines 171-177). -/
def generateStoryWithAITry (outcome : ChatOutcome) : Except String AIStoryResponse :=
  match outcome with
  | .failure => .error "OpenAI call failed"
  | .reply none => .error "AI response content is missing or empty."
  | .reply (some content) =>
    match parseJson content with
    | none => .error "JSON parse error"
    | some result =>
      match validateAIResponse result with
      | some parsedResult =>
        .ok { parsedResult with isGameOver := checkIfGameOver parsedResult.choices }
      | none => .error "Invalid response format from AI after parsing."

/-- Embedding of `generateStoryWithAI` (lines 68-207): with no API key
the deterministic placeholder; otherwise the try-block's reply, or on
any failure the mock fallback parameterised by the random draw. -/
def generateStoryWithAI (input : GenStoryInput) (hasApiKey : Bool)
    (outcome : ChatOutcome) (choiceNum : Int) : AIStoryResponse :=
  if ¬ hasApiKey then placeholderResponse input
  else
    match generateStoryWithAITry outcome with
    | .ok r => r
    | .error _ => mockFallback input choiceNum

/-! ### makeChoice -/

/-- Input of the `makeChoice` mutation (lines 754-764). -/
structure MakeChoiceInput where
  choiceId : Int
  currentStory : String
  currentChoices : List Choice
  gameTheme : String
  spriteDescription : String
deriving DecidableEq

/-- The `nextState` sub-record of a `makeChoice` reply. -/
structure NextState where
  story : String
  choices : List Choice
  backgroundDescription : String
deriving DecidableEq

/-- Reply record of `makeChoice` (absent JavaScript fields modelled as
`false` / `none`). -/
structure MakeChoiceResult where
  nextState : NextState
  backgroundImageUrl : String
  warning : Option String
  gameOver : Bool
  gameOverReason : Option String
deriving DecidableEq

/-- The three identical "Game Over" choices several terminal replies
carry. -/
def gameOverChoices : List Choice :=
  [⟨1, "Game Over"⟩, ⟨2, "Game Over"⟩, ⟨3, "Game Over"⟩]

/-- Reply of the catch block of `makeChoice` (lines 863-880): any error
of the try block becomes this fixed game-over payload. -/
def makeChoiceErrorResult : MakeChoiceResult where
  nextState :=
    { story := "Game Over! An error occurred.",
      choices := gameOverChoices,
      backgroundDescription := "A dark and gloomy scene." }
  backgroundImageUrl := ""
  warning := some "An error occurred. Your game progress won't be saved."
  gameOver := true
  gameOverReason := some "An error occurred. Please try again later."

/-- Try-block of `makeChoice` (lines 766-862).  `isBlunder` is the
explicit outcome of `Math.random() < 0.1` (line 779); `reply` the
outcome of the chat call plus `JSON.parse` of its content (lines
801-820, where the cast is unchecked: a throw of the call, a missing
content or unparseable content is `.error`, and a parsed value of a
shape other than `AIStoryResponse` would throw a `TypeError` at the
field accesses of lines 823-825, landing in the same catch block, so it
is modelled by `.error` as well); `genImage` the external image
generator's url for a prompt. -/
def makeChoiceTry (input : MakeChoiceInput) (isLoggedIn : Bool) (isBlunder : Bool)
    (reply : Except String AIStoryResponse) (genImage : String → String) :
    Except String MakeChoiceResult :=
  match input.currentChoices.find? (fun c => c.id == input.choiceId) with
  | none => .error "Invalid choice selected."
  | some _ =>
    if isBlunder then
      .ok { nextState :=
              { story := "Game Over! You made a fatal mistake.",
                choices := gameOverChoices,
                backgroundDescription := "A dark and gloomy scene." },
            backgroundImageUrl := "",
            warning := if isLoggedIn then none else some notLoggedInPlayWarning,
            gameOver := true,
            gameOverReason := some "You made a wrong choice and your adventure ended!" }
    else
      match reply with
      | .error e => .error e
      | .ok nextState0 =>
        let allChoicesAreGameOver :=
          decide (nextState0.choices.length > 0) &&
            nextState0.choices.all (fun choice => strIncludes (jsToLowerCase choice.text) "game over")
        let nextState := { nextState0 with isGameOver := allChoicesAreGameOver }
        if nextState.isGameOver then
          .ok { nextState :=
                  { story := nextState.story,
                    choices := nextState.choices,
                    backgroundDescription := nextState.backgroundDescription },
                backgroundImageUrl := genImage nextState.backgroundDescription,
                warning := if isLoggedIn then none else some notLoggedInPlayWarning,
                gameOver := true,
                gameOverReason := some "Your adventure has come to an end!" }
        else
          .ok { nextState :=
                  { story := nextState.story,
                    choices := nextState.choices,
                    backgroundDescription := nextState.backgroundDescription },
                backgroundImageUrl := genImage nextState.backgroundDescription,
                warning := if isLoggedIn then none else some notLoggedInPlayWarning,
                gameOver := false,
                gameOverReason := none }

/-- Embedding of the `makeChoice` mutation (lines 753-881): the whole
handler body sits in a try/catch, so every internal throw — the invalid
choice included — surfaces to the caller as the fixed error payload, not
as a failed call.  The procedure performs no database operation; the
database is threaded through to state that. -/
def makeChoice (db : GameDB) (session : Option String) (input : MakeChoiceInput)
    (isBlunder : Bool) (reply : Except String AIStoryResponse)
    (genImage : String → String) : MakeChoiceResult × GameDB :=
  match makeChoiceTry input session.isSome isBlunder reply genImage with
  | .ok r => (r, db)
  | .error _ => (makeChoiceErrorResult, db)

/-! ## Lemmas

Everything below is proof; no further definitions follow. -/

theorem charOfNat_toNat {n : Nat} (h : n < 55296) : (Char.ofNat n).toNat = n := by
  unfold Char.ofNat
  rw [dif_pos (Or.inl h)]
  rfl

theorem char_eq_iff_toNat {c d : Char} : c = d ↔ c.toNat = d.toNat := by
  constructor
  · intro h; rw [h]
  · intro h
    have := congrArg Char.ofNat h
    rwa [Char.ofNat_toNat, Char.ofNat_toNat] at this

theorem skipWs_cons_of_not_ws {c : Char} {l : List Char} (h : isWsChar c = false) :
    skipWs (c :: l) = c :: l := by
  simp [skipWs, h]

theorem isWsChar_of_digit {c : Char} (h : isDigitChar c = true) : isWsChar c = false := by
  simp [isDigitChar] at h
  simp [isWsChar]
  omega

theorem dropLit_append (p rest : List Char) : dropLit p (p ++ rest) = some rest := by
  induction p with
  | nil => rfl
  | cons c cs ih => simp [dropLit, ih]

theorem hexVal_hexDigitChar {n : Nat} (h : n < 16) : hexVal (hexDigitChar n) = some n := by
  unfold hexDigitChar
  by_cases h10 : n < 10
  · rw [if_pos h10]
    have ht : (Char.ofNat (48 + n)).toNat = 48 + n := charOfNat_toNat (by omega)
    simp only [hexVal, ht]
    rw [if_pos (by omega)]
    congr 1
    omega
  · rw [if_neg h10]
    have ht : (Char.ofNat (87 + n)).toNat = 87 + n := charOfNat_toNat (by omega)
    simp only [hexVal, ht]
    rw [if_neg (by omega), if_pos (by omega)]
    congr 1
    omega

theorem parseStringBody_flatMap_escape (cs : List Char) (rest : List Char) :
    parseStringBody (cs.flatMap escapeChar ++ ('"' :: rest)) = some (cs, rest) := by
  induction cs with
  | nil =>
    rw [parseStringBody.eq_def]
    simp
  | cons c cs ih =>
    rw [List.flatMap_cons, List.append_assoc]
    by_cases h1 : c = '"'
    · subst h1
      simp only [escapeChar, if_pos rfl, List.cons_append, List.nil_append]
      rw [parseStringBody.eq_def]
      simp [unescapeChar, ih]
    by_cases h2 : c = '\\'
    · subst h2
      simp only [escapeChar, if_neg h1, if_pos rfl, List.cons_append, List.nil_append]
      rw [parseStringBody.eq_def]
      simp [unescapeChar, ih]
    by_cases h3 : c = Char.ofNat 8
    · subst h3
      simp only [escapeChar, if_neg h1, if_neg h2, if_pos rfl, List.cons_append,
        List.nil_append]
      rw [parseStringBody.eq_def]
      simp [unescapeChar, ih]
    by_cases h4 : c = '\t'
    · subst h4
      simp only [escapeChar, if_neg h1, if_neg h2, if_neg h3, if_pos rfl, List.cons_append,
        List.nil_append]
      rw [parseStringBody.eq_def]
      simp [unescapeChar, ih]
    by_cases h5 : c = '\n'
    · subst h5
      simp only [escapeChar, if_neg h1, if_neg h2, if_neg h3, if_neg h4, if_pos rfl,
        List.cons_append, List.nil_append]
      rw [parseStringBody.eq_def]
      simp [unescapeChar, ih]
    by_cases h6 : c = Char.ofNat 12
    · subst h6
      simp only [escapeChar, if_neg h1, if_neg h2, if_neg h3, if_neg h4, if_neg h5,
        if_pos rfl, List.cons_append, List.nil_append]
      rw [parseStringBody.eq_def]
      simp [unescapeChar, ih]
    by_cases h7 : c = '\r'
    · subst h7
      simp only [escapeChar, if_neg h1, if_neg h2, if_neg h3, if_neg h4, if_neg h5,
        if_neg h6, if_pos rfl, List.cons_append, List.nil_append]
      rw [parseStringBody.eq_def]
      simp [unescapeChar, ih]
    by_cases h8 : c.toNat < 32
    · rw [escapeChar, if_neg h1, if_neg h2, if_neg h3, if_neg h4, if_neg h5, if_neg h6,
        if_neg h7, if_pos h8]
      have hv1 : hexVal '0' = some 0 := by decide
      have hv2 : hexVal (hexDigitChar (c.toNat / 16)) = some (c.toNat / 16) :=
        hexVal_hexDigitChar (by omega)
      have hv3 : hexVal (hexDigitChar (c.toNat % 16)) = some (c.toNat % 16) :=
        hexVal_hexDigitChar (by omega)
      have hn : c.toNat / 16 * 16 + c.toNat % 16 = c.toNat := by omega
      simp only [List.cons_append, List.nil_append]
      rw [parseStringBody.eq_def]
      simp [hv1, hv2, hv3, hn, ih, Char.ofNat_toNat, show c.toNat < 55296 by omega]
    · rw [escapeChar, if_neg h1, if_neg h2, if_neg h3, if_neg h4, if_neg h5, if_neg h6,
        if_neg h7, if_neg h8]
      simp only [List.cons_append, List.nil_append]
      rw [parseStringBody.eq_def]
      simp [h1, h2, h8, ih]

theorem natToChars_ne_nil (n : Nat) : natToChars n ≠ [] := by
  rw [natToChars]
  by_cases h : n < 10 <;> simp [h]

theorem natToChars_digits (n : Nat) : ∀ c ∈ natToChars n, isDigitChar c = true := by
  induction n using Nat.strong_induction_on with
  | _ n ih =>
    rw [natToChars]
    by_cases h : n < 10
    · simp only [if_pos h, List.mem_singleton]
      intro c hc
      subst hc
      have ht : (Char.ofNat (48 + n)).toNat = 48 + n := charOfNat_toNat (by omega)
      simp [isDigitChar, ht]
      omega
    · simp only [if_neg h, List.mem_append, List.mem_singleton]
      intro c hc
      rcases hc with hc | hc
      · exact ih (n / 10) (Nat.div_lt_self (by omega) (by omega)) c hc
      · subst hc
        have ht : (Char.ofNat (48 + n % 10)).toNat = 48 + n % 10 := charOfNat_toNat (by omega)
        simp [isDigitChar, ht]
        omega

theorem digitsToNat_append_singleton (l : List Char) (c : Char) :
    digitsToNat (l ++ [c]) = digitsToNat l * 10 + (c.toNat - 48) := by
  simp [digitsToNat, List.foldl_append]

theorem digitsToNat_natToChars (n : Nat) : digitsToNat (natToChars n) = n := by
  induction n using Nat.strong_induction_on with
  | _ n ih =>
    rw [natToChars]
    by_cases h : n < 10
    · simp only [if_pos h]
      have ht : (Char.ofNat (48 + n)).toNat = 48 + n := charOfNat_toNat (by omega)
      simp [digitsToNat, ht]
    · simp only [if_neg h]
      rw [digitsToNat_append_singleton, ih (n / 10) (Nat.div_lt_self (by omega) (by omega))]
      have ht : (Char.ofNat (48 + n % 10)).toNat = 48 + n % 10 := charOfNat_toNat (by omega)
      rw [ht]
      omega

theorem natToChars_head_ne_zero (n : Nat) (hn : n ≠ 0) :
    (natToChars n).head? ≠ some '0' := by
  induction n using Nat.strong_induction_on with
  | _ n ih =>
    rw [natToChars]
    by_cases h : n < 10
    · simp only [if_pos h, List.head?_cons]
      intro hc
      have hc' := Option.some.inj hc
      have := congrArg Char.toNat hc'
      rw [charOfNat_toNat (by omega)] at this
      have : 48 + n = 48 := this
      omega
    · rw [if_neg h, List.head?_append]
      have hne := natToChars_ne_nil (n / 10)
      have hh : (natToChars (n / 10)).head?.isSome := by
        cases hx : natToChars (n / 10) with
        | nil => exact absurd hx hne
        | cons a l => simp [hx]
      cases hx : (natToChars (n / 10)).head? with
      | none => simp [hx] at hh
      | some a =>
        have := ih (n / 10) (Nat.div_lt_self (by omega) (by omega)) (by omega)
        rw [hx] at this
        simp [hx, Option.or]
        intro hcontra
        exact this (by rw [hcontra])

theorem span_digits_append {ds rest : List Char} (hds : ∀ c ∈ ds, isDigitChar c = true)
    (hrest : noDigitAhead rest = true) : (ds ++ rest).span isDigitChar = (ds, rest) := by
  induction ds with
  | nil =>
    simp only [List.nil_append, List.span_eq_take_drop]
    cases rest with
    | nil => simp
    | cons c t =>
      simp only [noDigitAhead, Bool.not_eq_true'] at hrest
      simp [List.takeWhile_cons, List.dropWhile_cons, hrest]
  | cons d ds ih =>
    have hd : isDigitChar d = true := hds d (List.mem_cons_self d ds)
    have ih' := ih (fun c hc => hds c (List.mem_cons_of_mem d hc))
    simp only [List.span_eq_take_drop] at ih' ⊢
    simp [List.takeWhile_cons, List.dropWhile_cons, hd, Prod.ext_iff] at ih' ⊢
    exact ih'

theorem parseNat_natToChars (n : Nat) (rest : List Char)
    (hrest : noDigitAhead rest = true) :
    parseNat (natToChars n ++ rest) = some (n, rest) := by
  unfold parseNat
  rw [span_digits_append (natToChars_digits n) hrest]
  rw [if_neg (by simpa using natToChars_ne_nil n)]
  rw [if_neg ?hlz]
  · rw [digitsToNat_natToChars]
  case hlz =>
    rintro ⟨hzero, hlen⟩
    by_cases hn : n = 0
    · subst hn
      rw [show natToChars 0 = ['0'] from by rw [natToChars]; norm_num] at hlen
      simp at hlen
    · exact natToChars_head_ne_zero n hn hzero

theorem natToChars_head_digit (n : Nat) {c : Char} (h : (natToChars n).head? = some c) :
    isDigitChar c = true := by
  cases hx : natToChars n with
  | nil => exact absurd hx (natToChars_ne_nil n)
  | cons a l =>
    rw [hx] at h
    simp at h
    subst h
    exact natToChars_digits n a (by rw [hx]; exact List.mem_cons_self a l)

theorem parseNumber_intToChars (i : Int) (rest : List Char)
    (hrest : noDigitAhead rest = true) :
    parseNumber (intToChars i ++ rest) = some (Json.num i, rest) := by
  unfold intToChars
  by_cases h : i < 0
  · rw [if_pos h]
    unfold parseNumber
    rw [List.cons_append,
      if_pos (show ('-' :: (natToChars i.natAbs ++ rest)).head? = some '-' from rfl),
      List.tail_cons, parseNat_natToChars i.natAbs rest hrest]
    simp only [Option.map_some']
    have hi : -(i.natAbs : Int) = i := by omega
    rw [hi]
  · rw [if_neg h]
    unfold parseNumber
    rw [if_neg ?hm]
    · rw [parseNat_natToChars i.toNat rest hrest]
      simp only [Option.map_some']
      have hi : ((i.toNat : Int)) = i := by omega
      rw [hi]
    case hm =>
      cases hx : natToChars i.toNat with
      | nil => exact absurd hx (natToChars_ne_nil i.toNat)
      | cons a l =>
        rw [List.cons_append, List.head?_cons]
        intro hc
        have ha : a = '-' := by simpa using hc
        have hd := natToChars_digits i.toNat a (by rw [hx]; exact List.mem_cons_self a l)
        rw [ha] at hd
        exact absurd hd (by decide)

theorem digit_not_special {c : Char} (h : isDigitChar c = true) :
    c ≠ 'n' ∧ c ≠ 't' ∧ c ≠ 'f' ∧ c ≠ '"' ∧ c ≠ '[' ∧ c ≠ '{' ∧ c ≠ ']' ∧ c ≠ '}' := by
  refine ⟨?_, ?_, ?_, ?_, ?_, ?_, ?_, ?_⟩ <;>
    · rintro rfl
      exact absurd h (by decide)

theorem string_mk_data (s : String) : String.mk s.data = s := rfl

theorem jsize_pos (v : Json) : 1 ≤ jsize v := by
  cases v <;> simp [jsize]

theorem jsizeElems_pos {xs : List Json} (h : xs ≠ []) : 1 ≤ jsizeElems xs := by
  cases xs with
  | nil => exact absurd rfl h
  | cons x t => simp [jsizeElems]; omega

theorem jsizeFields_pos {fs : List (String × Json)} (h : fs ≠ []) : 1 ≤ jsizeFields fs := by
  cases fs with
  | nil => exact absurd rfl h
  | cons f t =>
    obtain ⟨k, v⟩ := f
    simp [jsizeFields]; omega

theorem emitElems_cons_shape (x : Json) (xs : List Json) :
    emitElems (x :: xs) = emitJson x ++ (if xs.isEmpty then [] else ',' :: emitElems xs) := by
  cases xs with
  | nil => simp [emitElems]
  | cons y t => simp [emitElems]

theorem emitFields_cons_shape (k : String) (v : Json) (fs : List (String × Json)) :
    emitFields ((k, v) :: fs) =
      encodeStr k ++ ':' :: emitJson v ++ (if fs.isEmpty then [] else ',' :: emitFields fs) := by
  cases fs with
  | nil => simp [emitFields]
  | cons g t => simp [emitFields]

theorem emitJson_head (v : Json) :
    ∃ c t, emitJson v = c :: t ∧ isWsChar c = false ∧ c ≠ ']' ∧ c ≠ '}' := by
  cases v with
  | null =>
    refine ⟨'n', _, rfl, ?_, ?_, ?_⟩ <;> decide
  | bool b =>
    cases b with
    | true => refine ⟨'t', _, rfl, ?_, ?_, ?_⟩ <;> decide
    | false => refine ⟨'f', _, rfl, ?_, ?_, ?_⟩ <;> decide
  | num i =>
    show ∃ c t, intToChars i = c :: t ∧ _
    unfold intToChars
    by_cases h : i < 0
    · rw [if_pos h]
      refine ⟨'-', _, rfl, ?_, ?_, ?_⟩ <;> decide
    · rw [if_neg h]
      cases hx : natToChars i.toNat with
      | nil => exact absurd hx (natToChars_ne_nil i.toNat)
      | cons a l =>
        have hd : isDigitChar a = true :=
          natToChars_digits i.toNat a (by rw [hx]; exact List.mem_cons_self a l)
        obtain ⟨_, _, _, _, _, _, h7, h8⟩ := digit_not_special hd
        exact ⟨a, l, rfl, isWsChar_of_digit hd, h7, h8⟩
  | str s =>
    refine ⟨'"', _, rfl, ?_, ?_, ?_⟩ <;> decide
  | arr xs =>
    cases xs with
    | nil => refine ⟨'[', _, rfl, ?_, ?_, ?_⟩ <;> decide
    | cons x t => refine ⟨'[', _, rfl, ?_, ?_, ?_⟩ <;> decide
  | obj fs =>
    cases fs with
    | nil => refine ⟨'{', _, rfl, ?_, ?_, ?_⟩ <;> decide
    | cons f t => refine ⟨'{', _, rfl, ?_, ?_, ?_⟩ <;> decide

theorem emitElems_cons_head (x : Json) (t : List Json) (rest' : List Char) :
    ∃ c ct, emitElems (x :: t) ++ rest' = c :: ct ∧ isWsChar c = false ∧
      c ≠ ']' ∧ c ≠ '}' := by
  obtain ⟨c, ct, hx, hws, h1, h2⟩ := emitJson_head x
  refine ⟨c, ct ++ ((if t.isEmpty then [] else ',' :: emitElems t) ++ rest'), ?_, hws, h1, h2⟩
  rw [emitElems_cons_shape, hx]
  simp

theorem emitFields_cons_head (f : String × Json) (fs : List (String × Json))
    (rest' : List Char) : ∃ ct, emitFields (f :: fs) ++ rest' = '"' :: ct := by
  obtain ⟨k, v⟩ := f
  refine ⟨(k.data.flatMap escapeChar ++ ['"']) ++
    ((':' :: emitJson v ++ (if fs.isEmpty then [] else ',' :: emitFields fs)) ++ rest'), ?_⟩
  rw [emitFields_cons_shape]
  simp [encodeStr]

theorem parse_complete (fuel : Nat) :
    (∀ v rest, jsize v ≤ fuel → noDigitAhead rest = true →
        parseValue fuel (emitJson v ++ rest) = some (v, rest)) ∧
    (∀ xs rest, xs ≠ [] → jsizeElems xs ≤ fuel →
        parseElems fuel (emitElems xs ++ ']' :: rest) = some (xs, rest)) ∧
    (∀ fs rest, fs ≠ [] → jsizeFields fs ≤ fuel →
        parseFields fuel (emitFields fs ++ '}' :: rest) = some (fs, rest)) := by
  induction fuel with
  | zero =>
    refine ⟨?_, ?_, ?_⟩
    · intro v rest hsz _
      exact absurd hsz (by have := jsize_pos v; omega)
    · intro xs rest hne hsz
      exact absurd hsz (by have := jsizeElems_pos hne; omega)
    · intro fs rest hne hsz
      exact absurd hsz (by have := jsizeFields_pos hne; omega)
  | succ fuel ih =>
    obtain ⟨ihV, ihE, ihF⟩ := ih
    refine ⟨?_, ?_, ?_⟩
    · intro v rest hsz hnd
      cases v with
      | null =>
        rw [parseValue.eq_def]
        simp [emitJson, skipWs, isWsChar, dropLit]
      | bool b =>
        cases b with
        | true =>
          rw [parseValue.eq_def]
          simp [emitJson, skipWs, isWsChar, dropLit]
        | false =>
          rw [parseValue.eq_def]
          simp [emitJson, skipWs, isWsChar, dropLit]
      | str s =>
        rw [parseValue.eq_def]
        simp only [emitJson, encodeStr, List.cons_append, List.append_assoc,
          List.singleton_append]
        simp [skipWs, isWsChar, parseStringBody_flatMap_escape]
      | num i =>
        have hnum := parseNumber_intToChars i rest hnd
        by_cases hneg : i < 0
        · have hx : intToChars i = '-' :: natToChars i.natAbs := by
            rw [intToChars, if_pos hneg]
          rw [parseValue.eq_def]
          simp only [emitJson]
          rw [hx] at hnum ⊢
          simp only [List.cons_append]
          rw [skipWs_cons_of_not_ws (by decide)]
          simpa using hnum
        · have hx : intToChars i = natToChars i.toNat := by
            rw [intToChars, if_neg hneg]
          cases hd : natToChars i.toNat with
          | nil => exact absurd hd (natToChars_ne_nil i.toNat)
          | cons a l =>
            have hda : isDigitChar a = true :=
              natToChars_digits i.toNat a (by rw [hd]; exact List.mem_cons_self a l)
            obtain ⟨g1, g2, g3, g4, g5, g6, _, _⟩ := digit_not_special hda
            rw [parseValue.eq_def]
            simp only [emitJson]
            rw [hx, hd] at hnum ⊢
            simp only [List.cons_append]
            rw [skipWs_cons_of_not_ws (isWsChar_of_digit hda)]
            simpa [g1, g2, g3, g4, g5, g6] using hnum
      | arr xs =>
        cases xs with
        | nil =>
          rw [parseValue.eq_def]
          simp [emitJson, skipWs, isWsChar]
        | cons x t =>
          have hsz' : jsizeElems (x :: t) ≤ fuel := by
            have : jsize (Json.arr (x :: t)) = 1 + jsizeElems (x :: t) := rfl
            omega
          have hE := ihE (x :: t) rest (by simp) hsz'
          obtain ⟨c, ct, heq, hws, h1, _⟩ := emitElems_cons_head x t (']' :: rest)
          rw [heq] at hE
          rw [parseValue.eq_def]
          simp only [emitJson, List.cons_append, List.append_assoc, List.singleton_append,
            List.nil_append]
          rw [skipWs_cons_of_not_ws (by decide)]
          rw [heq]
          simp [skipWs_cons_of_not_ws hws, h1, hE]
      | obj fs =>
        cases fs with
        | nil =>
          rw [parseValue.eq_def]
          simp [emitJson, skipWs, isWsChar]
        | cons f t =>
          have hsz' : jsizeFields (f :: t) ≤ fuel := by
            have : jsize (Json.obj (f :: t)) = 1 + jsizeFields (f :: t) := rfl
            omega
          have hF := ihF (f :: t) rest (by simp) hsz'
          obtain ⟨ct, heq⟩ := emitFields_cons_head f t ('}' :: rest)
          rw [heq] at hF
          rw [parseValue.eq_def]
          simp only [emitJson, List.cons_append, List.append_assoc, List.singleton_append,
            List.nil_append]
          rw [skipWs_cons_of_not_ws (by decide)]
          rw [heq]
          simp [skipWs_cons_of_not_ws (by decide : isWsChar '"' = false), hF]
    · intro xs rest hne hsz
      cases xs with
      | nil => exact absurd rfl hne
      | cons x t =>
        rw [parseElems.eq_def]
        cases t with
        | nil =>
          have hV := ihV x (']' :: rest)
            (by have : jsizeElems [x] = 1 + jsize x + 0 := rfl; omega) rfl
          simp only [emitElems]
          rw [hV]
          simp [skipWs, isWsChar]
        | cons y u =>
          have hx : jsize x ≤ fuel ∧ jsizeElems (y :: u) ≤ fuel := by
            have : jsizeElems (x :: y :: u) = 1 + jsize x + jsizeElems (y :: u) := rfl
            omega
          have hV := ihV x (',' :: (emitElems (y :: u) ++ ']' :: rest)) hx.1 rfl
          have hE := ihE (y :: u) rest (by simp) hx.2
          simp only [emitElems, List.cons_append, List.append_assoc, List.nil_append]
          rw [hV]
          simp [skipWs, isWsChar, hE]
    · intro fs rest hne hsz
      cases fs with
      | nil => exact absurd rfl hne
      | cons f fs' =>
        obtain ⟨k, v⟩ := f
        rw [parseFields.eq_def]
        cases fs' with
        | nil =>
          have hV := ihV v ('}' :: rest)
            (by have : jsizeFields [(k, v)] = 1 + jsize v + 0 := rfl; omega) rfl
          simp only [emitFields, encodeStr, List.cons_append, List.append_assoc,
            List.singleton_append, List.nil_append, List.head?_cons, List.tail_cons]
          rw [if_pos trivial, parseStringBody_flatMap_escape]
          simp [skipWs, isWsChar, hV, string_mk_data]
        | cons g gs =>
          have hx : jsize v ≤ fuel ∧ jsizeFields (g :: gs) ≤ fuel := by
            have : jsizeFields ((k, v) :: g :: gs) = 1 + jsize v + jsizeFields (g :: gs) := rfl
            omega
          have hV := ihV v (',' :: (emitFields (g :: gs) ++ '}' :: rest)) hx.1 rfl
          have hF := ihF (g :: gs) rest (by simp) hx.2
          obtain ⟨ct, heq⟩ := emitFields_cons_head g gs ('}' :: rest)
          rw [heq] at hF hV
          simp only [emitFields, encodeStr, List.cons_append, List.append_assoc,
            List.singleton_append, List.nil_append, List.head?_cons, List.tail_cons]
          rw [if_pos trivial, parseStringBody_flatMap_escape]
          simp [skipWs, isWsChar, hV, heq, hF, string_mk_data]

theorem jsize_le_bounded (fuel : Nat) :
    (∀ v, jsize v ≤ fuel → jsize v ≤ (emitJson v).length) ∧
    (∀ xs, jsizeElems xs ≤ fuel → jsizeElems xs ≤ (emitElems xs).length + 1) ∧
    (∀ fs, jsizeFields fs ≤ fuel → jsizeFields fs ≤ (emitFields fs).length + 1) := by
  induction fuel with
  | zero =>
    refine ⟨?_, ?_, ?_⟩
    · intro v hsz
      exact absurd hsz (by have := jsize_pos v; omega)
    · intro xs hsz
      cases xs with
      | nil => simp [jsizeElems]
      | cons x t =>
        exact absurd hsz (by have := jsizeElems_pos (show x :: t ≠ [] by simp); omega)
    · intro fs hsz
      cases fs with
      | nil => simp [jsizeFields]
      | cons f t =>
        exact absurd hsz (by have := jsizeFields_pos (show f :: t ≠ [] by simp); omega)
  | succ fuel ih =>
    obtain ⟨ihV, ihE, ihF⟩ := ih
    refine ⟨?_, ?_, ?_⟩
    · intro v hsz
      cases v with
      | null => simp [jsize, emitJson]
      | bool b => cases b <;> simp [jsize, emitJson]
      | num i =>
        have := natToChars_ne_nil i.toNat
        have := natToChars_ne_nil i.natAbs
        simp only [jsize, emitJson, intToChars]
        by_cases h : i < 0
        · rw [if_pos h]
          cases hx : natToChars i.natAbs with
          | nil => exact absurd hx (natToChars_ne_nil i.natAbs)
          | cons a l => simp
        · rw [if_neg h]
          cases hx : natToChars i.toNat with
          | nil => exact absurd hx (natToChars_ne_nil i.toNat)
          | cons a l => simp [hx]
      | str s => simp [jsize, emitJson, encodeStr]
      | arr xs =>
        cases xs with
        | nil => simp [jsize, jsizeElems, emitJson]
        | cons x t =>
          have h1 : jsizeElems (x :: t) ≤ fuel := by
            have : jsize (Json.arr (x :: t)) = 1 + jsizeElems (x :: t) := rfl
            omega
          have h2 := ihE (x :: t) h1
          have hsh : emitJson (Json.arr (x :: t)) = '[' :: (emitElems (x :: t) ++ [']']) := rfl
          rw [hsh]
          have : jsize (Json.arr (x :: t)) = 1 + jsizeElems (x :: t) := rfl
          rw [this]
          simp only [List.length_cons, List.length_append, List.length_singleton]
          omega
      | obj fs =>
        cases fs with
        | nil => simp [jsize, jsizeFields, emitJson]
        | cons f t =>
          have h1 : jsizeFields (f :: t) ≤ fuel := by
            have : jsize (Json.obj (f :: t)) = 1 + jsizeFields (f :: t) := rfl
            omega
          have h2 := ihF (f :: t) h1
          have hsh : emitJson (Json.obj (f :: t)) = '{' :: (emitFields (f :: t) ++ ['}']) := rfl
          rw [hsh]
          have : jsize (Json.obj (f :: t)) = 1 + jsizeFields (f :: t) := rfl
          rw [this]
          simp only [List.length_cons, List.length_append, List.length_singleton]
          omega
    · intro xs hsz
      cases xs with
      | nil => simp [jsizeElems]
      | cons x t =>
        have hx : jsize x ≤ fuel ∧ jsizeElems t ≤ fuel := by
          have : jsizeElems (x :: t) = 1 + jsize x + jsizeElems t := rfl
          have ht : 0 ≤ jsizeElems t := Nat.zero_le _
          omega
        have h1 := ihV x hx.1
        have h2 := ihE t hx.2
        have : jsizeElems (x :: t) = 1 + jsize x + jsizeElems t := rfl
        rw [this, emitElems_cons_shape]
        cases t with
        | nil => simp only [jsizeElems] at *; simp; omega
        | cons y u =>
          simp only [List.isEmpty_cons, Bool.false_eq_true, if_false, List.length_append,
            List.length_cons]
          omega
    · intro fs hsz
      cases fs with
      | nil => simp [jsizeFields]
      | cons f t =>
        obtain ⟨k, v⟩ := f
        have hx : jsize v ≤ fuel ∧ jsizeFields t ≤ fuel := by
          have : jsizeFields ((k, v) :: t) = 1 + jsize v + jsizeFields t := rfl
          omega
        have h1 := ihV v hx.1
        have h2 := ihF t hx.2
        have : jsizeFields ((k, v) :: t) = 1 + jsize v + jsizeFields t := rfl
        rw [this, emitFields_cons_shape]
        cases t with
        | nil => simp only [jsizeFields] at *; simp; omega
        | cons g u =>
          simp only [List.isEmpty_cons, Bool.false_eq_true, if_false, List.length_append,
            List.length_cons]
          omega

theorem jsize_le_emitLen (v : Json) : jsize v ≤ (emitJson v).length :=
  (jsize_le_bounded (jsize v)).1 v le_rfl

theorem parseJson_emitJson (v : Json) : parseJson (String.mk (emitJson v)) = some v := by
  unfold parseJson
  have hdata : (String.mk (emitJson v)).data = emitJson v := rfl
  have hlen : (String.mk (emitJson v)).length = (emitJson v).length := rfl
  rw [hdata, hlen]
  have h := (parse_complete ((emitJson v).length + 1)).1 v []
    (by have := jsize_le_emitLen v; omega) rfl
  rw [List.append_nil] at h
  rw [h]
  simp [skipWs]

theorem asChoiceItem_choiceObj (c : Choice) :
    asChoiceItem (Json.obj [("id", Json.num c.id), ("text", Json.str c.text)]) = some c := by
  show some ⟨c.id, c.text⟩ = some c
  rfl

theorem validateChoices_choicesToJson (l : List Choice) :
    validateChoices (choicesToJson l) = some l := by
  simp only [choicesToJson, validateChoices]
  induction l with
  | nil => rfl
  | cons c cs ih =>
    simp only [List.map_cons, List.mapM_cons, asChoiceItem_choiceObj, ih]
    rfl

theorem stringifyChoices_data (l : List Choice) :
    (stringifyChoices l).data = emitJson (choicesToJson l) := rfl

theorem emitJson_choicesToJson_head (l : List Choice) :
    ∃ t, emitJson (choicesToJson l) = '[' :: t := by
  cases l with
  | nil => exact ⟨_, rfl⟩
  | cons c cs => exact ⟨_, rfl⟩

theorem dropWsPre_keeps_nonws {l : List Char} {c : Char} (hc : c ∈ l)
    (hnw : isWsChar c = false) : ∃ d ∈ dropWsPre l, isWsChar d = false := by
  induction l with
  | nil => cases hc
  | cons a t ih =>
    by_cases ha : isWsChar a = true
    · have hct : c ∈ t := by
        cases hc with
        | head => rw [ha] at hnw; cases hnw
        | tail _ h => exact h
      obtain ⟨d, hd, hdn⟩ := ih hct
      refine ⟨d, ?_, hdn⟩
      simpa [dropWsPre, ha] using hd
    · refine ⟨a, ?_, by simpa using ha⟩
      rw [dropWsPre, if_neg ha]
      exact List.mem_cons_self a t

theorem jsTrim_ne_empty {s : String} {c : Char} (hc : c ∈ s.data)
    (hnw : isWsChar c = false) : jsTrim s ≠ "" := by
  obtain ⟨d, hd, hdn⟩ := dropWsPre_keeps_nonws hc hnw
  obtain ⟨e, he, hen⟩ := dropWsPre_keeps_nonws (List.mem_reverse.mpr hd) hdn
  intro hcontra
  have hnil : ((dropWsPre ((dropWsPre s.data).reverse)).reverse) = [] :=
    congrArg String.data hcontra
  rw [List.reverse_eq_nil_iff] at hnil
  rw [hnil] at he
  cases he

theorem string_eq_empty_iff_data (s : String) : s = "" ↔ s.data = [] := by
  constructor
  · intro h
    rw [h]
  · intro h
    have hs : s = String.mk s.data := rfl
    rw [hs, h]

theorem parseStoredChoices_stringify (l : List Choice) :
    parseStoredChoices (some (stringifyChoices l)) = l := by
  obtain ⟨t, ht⟩ := emitJson_choicesToJson_head l
  have hdata : (stringifyChoices l).data = '[' :: t := by
    rw [stringifyChoices_data, ht]
  have hmem : '[' ∈ (stringifyChoices l).data := by
    rw [hdata]; exact List.mem_cons_self _ _
  have hne : stringifyChoices l ≠ "" := by
    intro h
    rw [(string_eq_empty_iff_data _).mp h] at hdata
    cases hdata
  have htrim : jsTrim (stringifyChoices l) ≠ "" := jsTrim_ne_empty hmem (by decide)
  show (if stringifyChoices l = "" then []
    else if jsTrim (stringifyChoices l) = "" then []
    else match parseJson (stringifyChoices l) with
      | none => []
      | some j => (validateChoices j).getD []) = l
  rw [if_neg hne, if_neg htrim]
  have hp : parseJson (stringifyChoices l) = some (choicesToJson l) := by
    have : stringifyChoices l = String.mk (emitJson (choicesToJson l)) := rfl
    rw [this, parseJson_emitJson]
  rw [hp]
  simp [validateChoices_choicesToJson]

theorem find?_choice_none {l : List Choice} {k : Int}
    (h : ∀ c ∈ l, c.id ≠ k) : l.find? (fun c => c.id == k) = none := by
  rw [List.find?_eq_none]
  intro c hc
  simpa using h c hc

/-- C1 (counterexample): at `choiceId = 99` against choices with ids 1 and 2,
`makeChoice` does not fail: the internal "Invalid choice selected." throw is
caught by the procedure's own catch block, and the caller receives the fixed
generic game-over payload (success-shaped, warning "An error occurred. Your
game progress won't be saved.") — not an invalid-choice failure. -/
theorem makeChoice_invalid_choice_cex :
    makeChoice { rows := [], nextId := 1 } (some "user-1")
        { choiceId := 99, currentStory := "story", currentChoices := [⟨1, "north"⟩, ⟨2, "south"⟩],
          gameTheme := "fantasy", spriteDescription := "knight" }
        false
        (.ok { story := "next", choices := [⟨1, "go"⟩], backgroundDescription := "bg",
               isGameOver := false })
        (fun _ => "img.png")
      = (makeChoiceErrorResult, { rows := [], nextId := 1 })
    ∧ makeChoiceTry
        { choiceId := 99, currentStory := "story", currentChoices := [⟨1, "north"⟩, ⟨2, "south"⟩],
          gameTheme := "fantasy", spriteDescription := "knight" }
        true false
        (.ok { story := "next", choices := [⟨1, "go"⟩], backgroundDescription := "bg",
               isGameOver := false })
        (fun _ => "img.png")
      = .error "Invalid choice selected."
    ∧ makeChoiceErrorResult.gameOver = true
    ∧ makeChoiceErrorResult.warning = some "An error occurred. Your game progress won't be saved." :=
  ⟨rfl, rfl, rfl, rfl⟩

/-- C1 (amended): whenever the submitted choiceId matches no id of the
submitted choice list, the try block of `makeChoice` raises exactly
"Invalid choice selected.", the procedure's catch converts that into the
returned generic game-over payload rather than a failed call, and the
database is untouched (the procedure performs no write on any path). -/
theorem makeChoice_invalid_choice_caught (db : GameDB) (session : Option String)
    (input : MakeChoiceInput) (isBlunder : Bool) (reply : Except String AIStoryResponse)
    (genImage : String → String)
    (h : ∀ c ∈ input.currentChoices, c.id ≠ input.choiceId) :
    makeChoiceTry input session.isSome isBlunder reply genImage
        = .error "Invalid choice selected."
    ∧ makeChoice db session input isBlunder reply genImage = (makeChoiceErrorResult, db) := by
  have hf := find?_choice_none h
  constructor
  · unfold makeChoiceTry
    rw [hf]
  · unfold makeChoice makeChoiceTry
    rw [hf]

/-- C1 (witness): the amended statement applied at the counterexample's
concrete input. -/
theorem makeChoice_invalid_choice_caught_witness :
    (∀ c ∈ ([⟨1, "north"⟩, ⟨2, "south"⟩] : List Choice), c.id ≠ 99)
    ∧ (makeChoiceTry
        { choiceId := 99, currentStory := "story", currentChoices := [⟨1, "north"⟩, ⟨2, "south"⟩],
          gameTheme := "fantasy", spriteDescription := "knight" }
        (Option.isSome (some "user-1")) false (.error "boom") (fun _ => "img.png")
          = .error "Invalid choice selected."
      ∧ makeChoice { rows := [], nextId := 1 } (some "user-1")
          { choiceId := 99, currentStory := "story",
            currentChoices := [⟨1, "north"⟩, ⟨2, "south"⟩],
            gameTheme := "fantasy", spriteDescription := "knight" }
          false (.error "boom") (fun _ => "img.png")
          = (makeChoiceErrorResult, { rows := [], nextId := 1 })) :=
  ⟨by decide,
   makeChoice_invalid_choice_caught { rows := [], nextId := 1 } (some "user-1")
     { choiceId := 99, currentStory := "story", currentChoices := [⟨1, "north"⟩, ⟨2, "south"⟩],
       gameTheme := "fantasy", spriteDescription := "knight" }
     false (.error "boom") (fun _ => "img.png") (by decide)⟩

/-- C4: whenever the generator's parsed reply has at least one choice and
every choice's lower-cased text contains "game over", `makeChoice` returns a
terminal payload (`gameOver = true`) whatever the session, blunder draw and
input — the terminal flag is computed from the reply's choice texts (the
reply's own `isGameOver` field, quantified over here, is ignored). -/
theorem makeChoice_terminal_on_gameover_reply (db : GameDB) (session : Option String)
    (input : MakeChoiceInput) (isBlunder : Bool) (reply : AIStoryResponse)
    (genImage : String → String)
    (h1 : reply.choices ≠ [])
    (h2 : ∀ c ∈ reply.choices, strIncludes (jsToLowerCase c.text) "game over" = true) :
    (makeChoice db session input isBlunder (.ok reply) genImage).1.gameOver = true := by
  have hall : (decide (reply.choices.length > 0) &&
      reply.choices.all (fun choice => strIncludes (jsToLowerCase choice.text) "game over")) = true := by
    rw [Bool.and_eq_true]
    constructor
    · rw [decide_eq_true_eq]
      exact List.length_pos.mpr h1
    · exact List.all_eq_true.mpr h2
  unfold makeChoice makeChoiceTry
  cases hf : input.currentChoices.find? (fun c => c.id == input.choiceId) with
  | none => rfl
  | some c =>
    by_cases hb : isBlunder
    · simp [hb]
    · simp [hb, hall]

/-- C4 (witness): the theorem at the specification's example reply, whose
three choices are exactly "Game Over", "GAME OVER" and "game over!". -/
theorem makeChoice_terminal_on_gameover_reply_witness :
    (([⟨1, "Game Over"⟩, ⟨2, "GAME OVER"⟩, ⟨3, "game over!"⟩] : List Choice) ≠ []
    ∧ ∀ c ∈ ([⟨1, "Game Over"⟩, ⟨2, "GAME OVER"⟩, ⟨3, "game over!"⟩] : List Choice),
        strIncludes (jsToLowerCase c.text) "game over" = true)
    ∧ (makeChoice { rows := [], nextId := 1 } (some "user-1")
        { choiceId := 1, currentStory := "story", currentChoices := [⟨1, "north"⟩],
          gameTheme := "fantasy", spriteDescription := "knight" }
        false
        (.ok { story := "The end.",
               choices := [⟨1, "Game Over"⟩, ⟨2, "GAME OVER"⟩, ⟨3, "game over!"⟩],
               backgroundDescription := "bg", isGameOver := false })
        (fun _ => "img.png")).1.gameOver = true :=
  ⟨⟨by decide, by decide⟩,
   makeChoice_terminal_on_gameover_reply { rows := [], nextId := 1 } (some "user-1")
     { choiceId := 1, currentStory := "story", currentChoices := [⟨1, "north"⟩],
       gameTheme := "fantasy", spriteDescription := "knight" }
     false
     { story := "The end.", choices := [⟨1, "Game Over"⟩, ⟨2, "GAME OVER"⟩, ⟨3, "game over!"⟩],
       backgroundDescription := "bg", isGameOver := false }
     (fun _ => "img.png") (by decide) (by decide)⟩

/-- C10: `checkIfGameOver` of the empty list is `false`; in general it is
true exactly when the list is nonempty and every choice's lower-cased text
contains "game over" (the universal condition is not taken vacuously); and a
`makeChoice` call that reaches the generator (valid choice, no blunder) with
a zero-choice reply is not marked terminal. -/
theorem checkIfGameOver_empty_spec :
    checkIfGameOver [] = false
    ∧ (∀ l : List Choice, checkIfGameOver l = true ↔
        (l ≠ [] ∧ ∀ c ∈ l, strIncludes (jsToLowerCase c.text) "game over" = true))
    ∧ (∀ (db : GameDB) (session : Option String) (input : MakeChoiceInput)
        (reply : AIStoryResponse) (genImage : String → String),
        (input.currentChoices.find? (fun c => c.id == input.choiceId)).isSome = true →
        reply.choices = [] →
        (makeChoice db session input false (.ok reply) genImage).1.gameOver = false) := by
  refine ⟨rfl, ?_, ?_⟩
  · intro l
    unfold checkIfGameOver
    rw [Bool.and_eq_true, decide_eq_true_eq, List.all_eq_true]
    simp [List.length_pos]
  · intro db session input reply genImage hsome hempty
    obtain ⟨c, hc⟩ := Option.isSome_iff_exists.mp hsome
    unfold makeChoice makeChoiceTry
    rw [hc]
    simp [hempty]

/-- C8 (counterexample): two invocations of `generateStoryWithAI` with the
same input under the same failure (API key present, external call failed)
but different random draws return different fallback payloads — the
catch-block mock is randomised by `Math.floor(Math.random() * 3) + 1`, so
the fallback is not deterministic in the input. -/
theorem generateStoryWithAI_random_fallback_cex :
    generateStoryWithAI ⟨some "space", none, none, none⟩ true ChatOutcome.failure 1
      ≠ generateStoryWithAI ⟨some "space", none, none, none⟩ true ChatOutcome.failure 2 := by
  decide

/-- C8 (amended): the caller always receives a payload and no generator
failure is raised: with no API key the deterministic placeholder (the same
whatever the draw and outcome); with a key, a thrown call, a missing
content, an unparseable content, or a reply failing shape validation each
fall back to the mock reply, which depends on the input and the random draw
(and on nothing else). -/
theorem generateStoryWithAI_fallback_spec (input : GenStoryInput) (outcome : ChatOutcome)
    (choiceNum : Int) :
    generateStoryWithAI input false outcome choiceNum = placeholderResponse input
    ∧ generateStoryWithAI input true ChatOutcome.failure choiceNum = mockFallback input choiceNum
    ∧ generateStoryWithAI input true (ChatOutcome.reply none) choiceNum
        = mockFallback input choiceNum
    ∧ (∀ content, parseJson content = none →
        generateStoryWithAI input true (ChatOutcome.reply (some content)) choiceNum
          = mockFallback input choiceNum)
    ∧ (∀ content j, parseJson content = some j → validateAIResponse j = none →
        generateStoryWithAI input true (ChatOutcome.reply (some content)) choiceNum
          = mockFallback input choiceNum) := by
  refine ⟨rfl, rfl, rfl, ?_, ?_⟩
  · intro content hp
    simp [generateStoryWithAI, generateStoryWithAITry, hp]
  · intro content j hp hv
    simp [generateStoryWithAI, generateStoryWithAITry, hp, hv]

/-- C7 (counterexample): the legacy `saveGame` called without a session
returns `success: true` (together with the warning) — not `success: false`
or an equivalent failure indication — while making no database change. -/
theorem saveGame_unauth_success_true_cex :
    saveGame { rows := [], nextId := 1 } none 0
        { gamePhase := "playing", spriteDescription := none, spriteUrl := none,
          gameTheme := none, currentStory := none, currentChoices := none,
          currentBackgroundDescription := none, currentBackgroundImageUrl := none }
      = .ok ({ success := true,
               warning := some "Game state not saved to database. Log in to save your progress." },
             { rows := [], nextId := 1 }) := rfl

/-- C7 (amended): an unauthenticated write call causes no database mutation
and carries a warning or message in every case, but the success flags
differ: `saveGameSlot` returns `success: false` with a warning,
`deleteGameSave` returns `success: false` with a message, while the legacy
`saveGame` returns `success: true` with the same warning. -/
theorem unauthenticated_writes_spec (db : GameDB) (now : Int) (n : Int)
    (sInput : SaveGameSlotInput) (gInput : SaveGameInput)
    (hs : validGamePhase sInput.gamePhase = true)
    (hg : validGamePhase gInput.gamePhase = true) :
    saveGameSlot db none now sInput
      = .ok ({ success := false,
               warning := some "Game state not saved to database. Log in to save your progress.",
               slotNumber := none, score := none }, db)
    ∧ saveGame db none now gInput
      = .ok ({ success := true,
               warning := some "Game state not saved to database. Log in to save your progress." },
             db)
    ∧ deleteGameSave db none n
      = ({ success := false, message := "User not authenticated" }, db) := by
  refine ⟨?_, ?_, rfl⟩
  · unfold saveGameSlot
    rw [if_neg (by simp [hs])]
  · unfold saveGame
    rw [if_neg (by simp [hg])]

/-- C7 (witness): the amended statement at a concrete database and inputs. -/
theorem unauthenticated_writes_spec_witness :
    (validGamePhase "playing" = true ∧ validGamePhase "sprite" = true)
    ∧ (saveGameSlot { rows := [], nextId := 1 } none 7
        { slotNumber := 2, gamePhase := "playing", slotName := none, spriteDescription := none,
          spriteUrl := none, gameTheme := none, currentStory := none, currentChoices := none,
          currentBackgroundDescription := none, currentBackgroundImageUrl := none, score := none }
        = .ok ({ success := false,
                 warning := some "Game state not saved to database. Log in to save your progress.",
                 slotNumber := none, score := none }, { rows := [], nextId := 1 })
      ∧ saveGame { rows := [], nextId := 1 } none 7
          { gamePhase := "sprite", spriteDescription := none, spriteUrl := none,
            gameTheme := none, currentStory := none, currentChoices := none,
            currentBackgroundDescription := none, currentBackgroundImageUrl := none }
        = .ok ({ success := true,
                 warning := some "Game state not saved to database. Log in to save your progress." },
               { rows := [], nextId := 1 })
      ∧ deleteGameSave { rows := [], nextId := 1 } none 9
        = ({ success := false, message := "User not authenticated" },
           { rows := [], nextId := 1 })) :=
  ⟨⟨rfl, rfl⟩,
   unauthenticated_writes_spec { rows := [], nextId := 1 } 7 9
     { slotNumber := 2, gamePhase := "playing", slotName := none, spriteDescription := none,
       spriteUrl := none, gameTheme := none, currentStory := none, currentChoices := none,
       currentBackgroundDescription := none, currentBackgroundImageUrl := none, score := none }
     { gamePhase := "sprite", spriteDescription := none, spriteUrl := none,
       gameTheme := none, currentStory := none, currentChoices := none,
       currentBackgroundDescription := none, currentBackgroundImageUrl := none }
     rfl rfl⟩

/-- C9 (counterexample): an authenticated `saveGameSlot` at the
out-of-range slot number 7 is not rejected: it reports success for slot 7
and persists a new row with `slotNumber = 7` — a state change — because the
procedure's input schema is a bare `z.number()` with no range check. -/
theorem saveGameSlot_out_of_range_cex :
    saveGameSlot { rows := [], nextId := 1 } (some "user-1") 0
        { slotNumber := 7, gamePhase := "playing", slotName := none, spriteDescription := none,
          spriteUrl := none, gameTheme := none, currentStory := none, currentChoices := none,
          currentBackgroundDescription := none, currentBackgroundImageUrl := none, score := none }
      = .ok ({ success := true, warning := none, slotNumber := some 7, score := some 1 },
             { rows := [{ id := 1, userId := "user-1", slotNumber := 7,
                          slotName := some "Save Slot 7", gamePhase := "playing",
                          spriteDescription := none, spriteUrl := none, gameTheme := none,
                          currentStory := none, currentChoices := some "[]",
                          currentBackgroundDescription := none,
                          currentBackgroundImageUrl := none, score := 1,
                          createdAt := 0, updatedAt := 0 }],
               nextId := 2 }) := by
  rfl

/-- C9 (amended): only `loadGameSlot` validates the slot range — a slot
number outside 1..3 is rejected by its input schema before the handler runs
and no state changes — while `saveGameSlot` and `deleteGameSave` carry no
range check: an authenticated `saveGameSlot` with a valid phase succeeds
and upserts at whatever slot number was sent, and an authenticated
`deleteGameSave` deletes every matching row and reports success for any
slot number. -/
theorem slot_range_validation_spec (db : GameDB) (uid : String) (now n : Int)
    (input : SaveGameSlotInput) :
    ((n < 1 ∨ 3 < n) → loadGameSlot db (some uid) n = .error slotRangeRejection)
    ∧ (validGamePhase input.gamePhase = true →
        ∃ res db', saveGameSlot db (some uid) now input = .ok (res, db')
          ∧ res.success = true ∧ res.slotNumber = some input.slotNumber)
    ∧ deleteGameSave db (some uid) n
        = ({ success := true, message := "Game save deleted successfully" },
           { db with rows := db.rows.filter (fun r => ¬ rowMatches uid n r) }) := by
  refine ⟨?_, ?_, rfl⟩
  · intro h
    unfold loadGameSlot
    rw [if_pos h]
  · intro hp
    unfold saveGameSlot
    rw [if_neg (by simp [hp])]
    cases hsel : (selectUserSlot db uid input.slotNumber).head? with
    | some r =>
      simp only [hsel]
      exact ⟨_, _, rfl, rfl, rfl⟩
    | none =>
      simp only [hsel]
      exact ⟨_, _, rfl, rfl, rfl⟩

theorem selectUserSlot_head? (db : GameDB) (uid : String) (n : Int) :
    (selectUserSlot db uid n).head? = (db.rows.filter (rowMatches uid n)).head? := by
  simp [selectUserSlot, List.head?_take]

theorem rowMatches_updateRowForSave (uid : String) (n : Int) (input : SaveGameSlotInput)
    (newScore now : Int) (r : GameSaveRow) :
    rowMatches uid n (updateRowForSave input newScore now r) = rowMatches uid n r := rfl

theorem rowMatches_insertRowForSave (uid : String) (input : SaveGameSlotInput)
    (newScore now id : Int) :
    rowMatches uid input.slotNumber (insertRowForSave uid input newScore now id) = true := by
  simp [rowMatches, insertRowForSave]

theorem jsOrInt_zero (x : Int) : jsOrInt x 0 = x := by
  unfold jsOrInt
  split
  · omega
  · rfl

/-- C2: an authenticated `saveGameSlot` (with a phase the input schema
accepts) succeeds, and the stored score of the addressed `(userId,
slotNumber)` slot — reported back in the result and written to every row of
that natural key — is the explicit input score verbatim when one is
supplied, and otherwise the prior row's score plus exactly one (so exactly
1 when no prior row exists). -/
theorem saveGameSlot_score_spec (db : GameDB) (uid : String) (now : Int)
    (input : SaveGameSlotInput)
    (hphase : validGamePhase input.gamePhase = true) :
    ∃ res db', saveGameSlot db (some uid) now input = .ok (res, db')
      ∧ res.success = true
      ∧ res.score = some (input.score.getD
          ((((db.rows.filter (rowMatches uid input.slotNumber)).head?.map
              (fun r => r.score)).getD 0) + 1))
      ∧ (∀ r ∈ db'.rows, rowMatches uid input.slotNumber r = true →
          r.score = input.score.getD
            ((((db.rows.filter (rowMatches uid input.slotNumber)).head?.map
                (fun r => r.score)).getD 0) + 1))
      ∧ (∃ r ∈ db'.rows, rowMatches uid input.slotNumber r = true) := by
  unfold saveGameSlot
  rw [if_neg (by simp [hphase])]
  cases hsel : (selectUserSlot db uid input.slotNumber).head? with
  | some r =>
    have hfil : (db.rows.filter (rowMatches uid input.slotNumber)).head? = some r := by
      rw [← selectUserSlot_head?, hsel]
    simp only [hsel, hfil, jsOrInt_zero]
    refine ⟨_, _, rfl, rfl, ?_, ?_, ?_⟩
    · cases hscore : input.score <;> rfl
    · intro r' hr' hm
      obtain ⟨r0, hr0, rfl⟩ := List.mem_map.mp hr'
      by_cases hm0 : rowMatches uid input.slotNumber r0 = true
      · rw [if_pos hm0]
        cases hscore : input.score <;> rfl
      · rw [if_neg hm0] at hm ⊢
        exact absurd hm hm0
    · have hrmem : r ∈ db.rows.filter (rowMatches uid input.slotNumber) := by
        cases hq : db.rows.filter (rowMatches uid input.slotNumber) with
        | nil => rw [hq] at hfil; cases hfil
        | cons a t =>
          rw [hq] at hfil
          have ha : a = r := by simpa using hfil
          rw [← ha]
          exact List.mem_cons_self a t
      have hrrows : r ∈ db.rows := (List.mem_filter.mp hrmem).1
      have hrm : rowMatches uid input.slotNumber r = true := (List.mem_filter.mp hrmem).2
      refine ⟨updateRowForSave input
          (match input.score with | some v => v | none => r.score + 1) now r, ?_, ?_⟩
      · have hmem2 := List.mem_map_of_mem
          (fun r0 => if rowMatches uid input.slotNumber r0 = true then
            updateRowForSave input
              (match input.score with | some v => v | none => r.score + 1) now r0
            else r0) hrrows
        simpa [hrm] using hmem2
      · rw [rowMatches_updateRowForSave]
        exact hrm
  | none =>
    have hfil : (db.rows.filter (rowMatches uid input.slotNumber)).head? = none := by
      rw [← selectUserSlot_head?, hsel]
    have hfilnil : db.rows.filter (rowMatches uid input.slotNumber) = [] :=
      List.head?_eq_none_iff.mp hfil
    have hnomatch : ∀ a ∈ db.rows, ¬ rowMatches uid input.slotNumber a = true :=
      List.filter_eq_nil_iff.mp hfilnil
    simp only [hsel, hfil]
    refine ⟨_, _, rfl, rfl, ?_, ?_, ?_⟩
    · cases hscore : input.score <;> rfl
    · intro r' hr' hm
      rcases List.mem_append.mp hr' with hleft | hright
      · exact absurd hm (hnomatch r' hleft)
      · have : r' = insertRowForSave uid input
            (match input.score with
              | some v => v
              | none => 0 + 1) now db.nextId := by simpa using hright
        rw [this]
        cases hscore : input.score <;> simp [insertRowForSave, hscore]
    · refine ⟨insertRowForSave uid input
          (match input.score with | some v => v | none => 0 + 1) now db.nextId, ?_,
        rowMatches_insertRowForSave uid input
          (match input.score with | some v => v | none => 0 + 1) now db.nextId⟩
      exact List.mem_append.mpr (Or.inr (List.mem_cons_self _ _))

/-- C2 (witness): the theorem at a one-row database holding score 5 with no
explicit input score: the call succeeds and stores score 6. -/
theorem saveGameSlot_score_spec_witness :
    validGamePhase "playing" = true
    ∧ (∃ res db', saveGameSlot
        { rows := [{ id := 1, userId := "user-1", slotNumber := 2, slotName := some "A",
                     gamePhase := "playing", spriteDescription := none, spriteUrl := none,
                     gameTheme := none, currentStory := none, currentChoices := some "[]",
                     currentBackgroundDescription := none, currentBackgroundImageUrl := none,
                     score := 5, createdAt := 0, updatedAt := 0 }],
          nextId := 2 }
        (some "user-1") 10
        { slotNumber := 2, gamePhase := "playing", slotName := none, spriteDescription := none,
          spriteUrl := none, gameTheme := none, currentStory := none, currentChoices := none,
          currentBackgroundDescription := none, currentBackgroundImageUrl := none,
          score := none }
        = .ok (res, db')
      ∧ res.success = true
      ∧ res.score = some ((Option.none (α := Int)).getD
          (((({ rows := [{ id := 1, userId := "user-1", slotNumber := 2, slotName := some "A",
                           gamePhase := "playing", spriteDescription := none, spriteUrl := none,
                           gameTheme := none, currentStory := none, currentChoices := some "[]",
                           currentBackgroundDescription := none,
                           currentBackgroundImageUrl := none,
                           score := 5, createdAt := 0, updatedAt := 0 }],
                 nextId := 2 } : GameDB).rows.filter (rowMatches "user-1" 2)).head?.map
              (fun r => r.score)).getD 0 + 1))
      ∧ (∀ r ∈ db'.rows, rowMatches "user-1" 2 r = true →
          r.score = (Option.none (α := Int)).getD
            (((({ rows := [{ id := 1, userId := "user-1", slotNumber := 2, slotName := some "A",
                             gamePhase := "playing", spriteDescription := none,
                             spriteUrl := none, gameTheme := none, currentStory := none,
                             currentChoices := some "[]",
                             currentBackgroundDescription := none,
                             currentBackgroundImageUrl := none,
                             score := 5, createdAt := 0, updatedAt := 0 }],
                   nextId := 2 } : GameDB).rows.filter (rowMatches "user-1" 2)).head?.map
                (fun r => r.score)).getD 0 + 1))
      ∧ (∃ r ∈ db'.rows, rowMatches "user-1" 2 r = true)) :=
  ⟨rfl,
   saveGameSlot_score_spec
     { rows := [{ id := 1, userId := "user-1", slotNumber := 2, slotName := some "A",
                  gamePhase := "playing", spriteDescription := none, spriteUrl := none,
                  gameTheme := none, currentStory := none, currentChoices := some "[]",
                  currentBackgroundDescription := none, currentBackgroundImageUrl := none,
                  score := 5, createdAt := 0, updatedAt := 0 }],
       nextId := 2 }
     "user-1" 10
     { slotNumber := 2, gamePhase := "playing", slotName := none, spriteDescription := none,
       spriteUrl := none, gameTheme := none, currentStory := none, currentChoices := none,
       currentBackgroundDescription := none, currentBackgroundImageUrl := none, score := none }
     rfl⟩

theorem processSlot_slotNumber (rows : List GameSaveRow) (i : Int) :
    (processSlot rows i).slotNumber = i := by
  unfold processSlot
  cases rows.find? (fun slot => slot.slotNumber == i) <;> rfl

/-- C3: for an authenticated user, `getSaveSlots` succeeds with exactly 3
entries whose slot numbers are 1, 2, 3 in order, and the entry of each slot
number is the synthesized empty placeholder when the user's rows hold no
row of that number, and the projection of the first such row otherwise. -/
theorem getSaveSlots_three_slots (db : GameDB) (uid : String) :
    ∃ slots, getSaveSlots db (some uid) = .success slots
      ∧ slots.length = 3
      ∧ slots.map (fun e => e.slotNumber) = [1, 2, 3]
      ∧ ∀ n ∈ ([1, 2, 3] : List Int), ∃ e ∈ slots, e.slotNumber = n
          ∧ (((selectUserRowsBySlot db uid).find? (fun slot => slot.slotNumber == n) = none
              ∧ e = emptySlotEntry n)
            ∨ (∃ row, (selectUserRowsBySlot db uid).find?
                  (fun slot => slot.slotNumber == n) = some row
                ∧ e = projectSlotRow n row)) := by
  refine ⟨_, rfl, rfl, ?_, ?_⟩
  · simp [getSaveSlots, processSlot_slotNumber]
  · intro n hn
    refine ⟨processSlot (selectUserRowsBySlot db uid) n,
      List.mem_map_of_mem _ hn, processSlot_slotNumber _ _, ?_⟩
    cases hf : (selectUserRowsBySlot db uid).find? (fun slot => slot.slotNumber == n) with
    | none =>
      left
      exact ⟨rfl, by unfold processSlot; rw [hf]⟩
    | some row =>
      right
      exact ⟨row, rfl, by unfold processSlot; rw [hf]⟩

theorem parseStoredChoices_eq_nil_of_bad (o : Option String)
    (hbad : ∀ s, o = some s → (parseJson s).bind validateChoices = none) :
    parseStoredChoices o = [] := by
  cases o with
  | none => rfl
  | some s =>
    have hb := hbad s rfl
    show (if s = "" then []
      else if jsTrim s = "" then []
      else match parseJson s with
        | none => []
        | some j => (validateChoices j).getD []) = []
    by_cases h1 : s = ""
    · rw [if_pos h1]
    rw [if_neg h1]
    by_cases h2 : jsTrim s = ""
    · rw [if_pos h2]
    rw [if_neg h2]
    cases hj : parseJson s with
    | none => rfl
    | some j =>
      rw [hj] at hb
      simp only [Option.some_bind] at hb
      simp [hb]

/-- C5: when the stored row of an authenticated user's slot (slot number in
range) has a `currentChoices` text that does not decode to the expected
shape — `JSON.parse` fails or the parsed value fails the choice-array
validation — `loadGameSlot` still answers `loaded` (no error reaches the
caller) with the row's choices replaced by the empty list. -/
theorem loadGameSlot_malformed_choices (db : GameDB) (uid : String) (n : Int)
    (row : GameSaveRow)
    (h1 : 1 ≤ n) (h2 : n ≤ 3)
    (hrow : (selectUserSlot db uid n).head? = some row)
    (hbad : ∀ s, row.currentChoices = some s → (parseJson s).bind validateChoices = none) :
    loadGameSlot db (some uid) n = .ok (.loaded (spreadWithChoices row [])) := by
  unfold loadGameSlot
  rw [if_neg (by omega)]
  simp only [hrow, parseStoredChoices_eq_nil_of_bad row.currentChoices hbad]

/-- C5 (witness): a stored row whose choices column holds the literal text
"not json" loads as `choices: []` with status `loaded`. -/
theorem loadGameSlot_malformed_choices_witness :
    ((1 : Int) ≤ 2 ∧ (2 : Int) ≤ 3
    ∧ (selectUserSlot
        { rows := [{ id := 1, userId := "user-1", slotNumber := 2, slotName := some "A",
                     gamePhase := "playing", spriteDescription := none, spriteUrl := none,
                     gameTheme := none, currentStory := none,
                     currentChoices := some "not json",
                     currentBackgroundDescription := none, currentBackgroundImageUrl := none,
                     score := 3, createdAt := 0, updatedAt := 0 }],
          nextId := 2 } "user-1" 2).head?
      = some { id := 1, userId := "user-1", slotNumber := 2, slotName := some "A",
               gamePhase := "playing", spriteDescription := none, spriteUrl := none,
               gameTheme := none, currentStory := none, currentChoices := some "not json",
               currentBackgroundDescription := none, currentBackgroundImageUrl := none,
               score := 3, createdAt := 0, updatedAt := 0 })
    ∧ loadGameSlot
        { rows := [{ id := 1, userId := "user-1", slotNumber := 2, slotName := some "A",
                     gamePhase := "playing", spriteDescription := none, spriteUrl := none,
                     gameTheme := none, currentStory := none,
                     currentChoices := some "not json",
                     currentBackgroundDescription := none, currentBackgroundImageUrl := none,
                     score := 3, createdAt := 0, updatedAt := 0 }],
          nextId := 2 } (some "user-1") 2
      = .ok (.loaded (spreadWithChoices
          { id := 1, userId := "user-1", slotNumber := 2, slotName := some "A",
            gamePhase := "playing", spriteDescription := none, spriteUrl := none,
            gameTheme := none, currentStory := none, currentChoices := some "not json",
            currentBackgroundDescription := none, currentBackgroundImageUrl := none,
            score := 3, createdAt := 0, updatedAt := 0 } [])) :=
  ⟨⟨by decide, by decide, rfl⟩,
   loadGameSlot_malformed_choices
     { rows := [{ id := 1, userId := "user-1", slotNumber := 2, slotName := some "A",
                  gamePhase := "playing", spriteDescription := none, spriteUrl := none,
                  gameTheme := none, currentStory := none, currentChoices := some "not json",
                  currentBackgroundDescription := none, currentBackgroundImageUrl := none,
                  score := 3, createdAt := 0, updatedAt := 0 }],
       nextId := 2 } "user-1" 2
     { id := 1, userId := "user-1", slotNumber := 2, slotName := some "A",
       gamePhase := "playing", spriteDescription := none, spriteUrl := none,
       gameTheme := none, currentStory := none, currentChoices := some "not json",
       currentBackgroundDescription := none, currentBackgroundImageUrl := none,
       score := 3, createdAt := 0, updatedAt := 0 }
     (by decide) (by decide) rfl
     (by
       intro s hs
       cases hs
       rfl)⟩

theorem mem_of_head?_eq_some {α : Type} {l : List α} {a : α} (h : l.head? = some a) :
    a ∈ l := by
  cases l with
  | nil => cases h
  | cons x t =>
    have : x = a := by simpa using h
    rw [← this]
    exact List.mem_cons_self x t

theorem selectUserSlot_after_update (db : GameDB) (uid : String) (n : Int)
    (input : SaveGameSlotInput) (ns now : Int) (r : GameSaveRow)
    (hfil : (db.rows.filter (rowMatches uid n)).head? = some r)
    (hpr : rowMatches uid n r = true) :
    ((db.rows.map (fun r0 => if rowMatches uid n r0 then updateRowForSave input ns now r0
        else r0)).filter (rowMatches uid n)).head?
      = some (updateRowForSave input ns now r) := by
  rw [List.filter_map]
  have hcomp : (rowMatches uid n ∘ fun r0 =>
      if rowMatches uid n r0 then updateRowForSave input ns now r0 else r0)
        = rowMatches uid n := by
    funext r0
    by_cases h : rowMatches uid n r0 = true
    · simp [h, rowMatches_updateRowForSave]
    · simp [h]
  rw [hcomp, List.head?_map, hfil]
  simp [hpr]

theorem selectUserSlot_after_insert (db : GameDB) (uid : String) (n : Int)
    (newRow : GameSaveRow)
    (hnil : db.rows.filter (rowMatches uid n) = [])
    (hpr : rowMatches uid n newRow = true) :
    ((db.rows ++ [newRow]).filter (rowMatches uid n)).head? = some newRow := by
  rw [List.filter_append, hnil]
  simp [hpr]

/-- C6: saving a well-formed choices list with `saveGameSlot` and then
loading the same authenticated `(userId, slotNumber)` slot with
`loadGameSlot`, with no intervening write, returns a choices sequence equal
to the saved list — the stringified column round-trips through the
defensive decode. -/
theorem save_load_roundtrip (db : GameDB) (uid : String) (now : Int)
    (input : SaveGameSlotInput) (l : List Choice)
    (hphase : validGamePhase input.gamePhase = true)
    (hch : input.currentChoices = some l)
    (h1 : 1 ≤ input.slotNumber) (h2 : input.slotNumber ≤ 3) :
    ∃ res db' d, saveGameSlot db (some uid) now input = .ok (res, db')
      ∧ loadGameSlot db' (some uid) input.slotNumber = .ok (.loaded d)
      ∧ d.currentChoices = l := by
  unfold saveGameSlot
  rw [if_neg (by simp [hphase])]
  cases hsel : (selectUserSlot db uid input.slotNumber).head? with
  | some r =>
    have hfil : (db.rows.filter (rowMatches uid input.slotNumber)).head? = some r := by
      rw [← selectUserSlot_head?, hsel]
    have hpr : rowMatches uid input.slotNumber r = true :=
      (List.mem_filter.mp (mem_of_head?_eq_some hfil)).2
    simp only [hsel]
    refine ⟨_, _, spreadWithChoices
        (updateRowForSave input
          (match input.score with | some v => v | none => jsOrInt r.score 0 + 1) now r) l,
      rfl, ?_, rfl⟩
    unfold loadGameSlot
    rw [if_neg (by omega)]
    have hupd := selectUserSlot_after_update db uid input.slotNumber input
      (match input.score with | some v => v | none => jsOrInt r.score 0 + 1) now r hfil hpr
    have hsel' : (selectUserSlot
        { db with rows := db.rows.map (fun r0 =>
            if rowMatches uid input.slotNumber r0 then
              updateRowForSave input
                (match input.score with | some v => v | none => jsOrInt r.score 0 + 1) now r0
            else r0) } uid input.slotNumber).head?
        = some (updateRowForSave input
            (match input.score with | some v => v | none => jsOrInt r.score 0 + 1) now r) := by
      rw [selectUserSlot_head?]
      exact hupd
    simp only [hsel']
    have hcc : (updateRowForSave input
        (match input.score with | some v => v | none => jsOrInt r.score 0 + 1) now
          r).currentChoices = some (stringifyChoices l) := by
      simp [updateRowForSave, hch]
    rw [hcc, parseStoredChoices_stringify]
  | none =>
    have hfil : (db.rows.filter (rowMatches uid input.slotNumber)).head? = none := by
      rw [← selectUserSlot_head?, hsel]
    have hnil : db.rows.filter (rowMatches uid input.slotNumber) = [] :=
      List.head?_eq_none_iff.mp hfil
    simp only [hsel]
    refine ⟨_, _, spreadWithChoices
        (insertRowForSave uid input
          (match input.score with | some v => v | none => 0 + 1) now db.nextId) l,
      rfl, ?_, rfl⟩
    unfold loadGameSlot
    rw [if_neg (by omega)]
    have hins := selectUserSlot_after_insert db uid input.slotNumber
      (insertRowForSave uid input
        (match input.score with | some v => v | none => 0 + 1) now db.nextId)
      hnil (rowMatches_insertRowForSave uid input _ now db.nextId)
    have hsel' : (selectUserSlot
        { rows := db.rows ++ [insertRowForSave uid input
            (match input.score with | some v => v | none => 0 + 1) now db.nextId],
          nextId := db.nextId + 1 } uid input.slotNumber).head?
        = some (insertRowForSave uid input
            (match input.score with | some v => v | none => 0 + 1) now db.nextId) := by
      rw [selectUserSlot_head?]
      exact hins
    simp only [hsel']
    have hcc : (insertRowForSave uid input
        (match input.score with | some v => v | none => 0 + 1) now
          db.nextId).currentChoices = some (stringifyChoices l) := by
      simp [insertRowForSave, hch]
    rw [hcc, parseStoredChoices_stringify]

/-- C6 (witness): the round trip at the specification's example — saving
`[{id: 1, text: "Go north"}]` into slot 2 of an empty database and loading
slot 2 returns exactly that choices list. -/
theorem save_load_roundtrip_witness :
    (validGamePhase "playing" = true
    ∧ (some [(⟨1, "Go north"⟩ : Choice)] = some [(⟨1, "Go north"⟩ : Choice)])
    ∧ (1 : Int) ≤ 2 ∧ (2 : Int) ≤ 3)
    ∧ ∃ res db' d, saveGameSlot { rows := [], nextId := 1 } (some "user-1") 50
        { slotNumber := 2, gamePhase := "playing", slotName := none, spriteDescription := none,
          spriteUrl := none, gameTheme := none, currentStory := none,
          currentChoices := some [⟨1, "Go north"⟩],
          currentBackgroundDescription := none, currentBackgroundImageUrl := none,
          score := none }
        = .ok (res, db')
      ∧ loadGameSlot db' (some "user-1") 2 = .ok (.loaded d)
      ∧ d.currentChoices = [⟨1, "Go north"⟩] :=
  ⟨⟨rfl, rfl, by decide, by decide⟩,
   save_load_roundtrip { rows := [], nextId := 1 } "user-1" 50
     { slotNumber := 2, gamePhase := "playing", slotName := none, spriteDescription := none,
       spriteUrl := none, gameTheme := none, currentStory := none,
       currentChoices := some [⟨1, "Go north"⟩],
       currentBackgroundDescription := none, currentBackgroundImageUrl := none, score := none }
     [⟨1, "Go north"⟩] rfl rfl (by decide) (by decide)⟩

end ThreadsOfDestiny
